import Mathlib

/-!
Shallow embedding of the retrieval core of hackrx-6.0-llm-system:
`src/vector_database.py` and `src/advanced_document_processor.py`.

Modelling conventions:
* Python strings are `List Char` (`PyStr`); `bytes` objects are `List ℕ`.
* Python floats are rationals (`ℚ`); the float literals occurring in the
  source (`1.3`, `0.7`, `0.3`, `0.9`, ...) are exact decimal fractions.
* Machine behaviour that lives in third-party libraries (the `re` module,
  `hashlib.md5`, `tiktoken`, `PyPDF2`/`docx`/`BeautifulSoup` parsers,
  `requests`) is abstracted into explicit function parameters; everything
  written in the repository itself is translated directly.
* Python exceptions are modelled with `Except PyErr`; a Python function
  that cannot raise is modelled as a total function.
-/

/-- Python strings are modelled as lists of characters. -/
abbrev PyStr : Type := List Char

/-- Python `bytes` objects are modelled as lists of byte values. -/
abbrev PyBytes : Type := List ℕ

/-- Coerce a Lean string literal into the model's string type. -/
def str (s : String) : PyStr := s.toList

/-- Python `str.lower()` (the source only ever lower-cases ASCII text). -/
def pyLower (s : PyStr) : PyStr := s.map Char.toLower

/-- Python `str.upper()`. -/
def pyUpper (s : PyStr) : PyStr := s.map Char.toUpper

/-- Boolean prefix test: `isPrefixB p s` is true when `p` begins `s`. -/
def isPrefixB {α : Type} [DecidableEq α] : List α → List α → Bool
  | [], _ => true
  | _ :: _, [] => false
  | a :: ps, b :: ss => a = b && isPrefixB ps ss

/-- Python's `needle in hay` containment test on sequences:
`listContainsSub hay needle` is true when `needle` occurs contiguously in
`hay` (the empty needle is always contained). -/
def listContainsSub {α : Type} [DecidableEq α] : List α → List α → Bool
  | [], needle => needle.isEmpty
  | h :: hay, needle => isPrefixB needle (h :: hay) || listContainsSub hay needle

/-- Python's `needle in hay` on strings. -/
def containsSub (hay needle : PyStr) : Bool := listContainsSub hay needle

/-- Python `str.endswith(suffix)`. -/
def endsWithB (s suffix : PyStr) : Bool := isPrefixB suffix.reverse s.reverse

/-- Python `str.strip()` with no argument: remove leading and trailing
whitespace. -/
def pyStrip (s : PyStr) : PyStr :=
  ((s.dropWhile Char.isWhitespace).reverse.dropWhile Char.isWhitespace).reverse

/-- Maximal runs of characters satisfying `keep`; `cur` carries the
current run reversed.  Implements the splitting shared by `str.split()`
and the vectorizer's tokenizer. -/
def runsAux (keep : Char → Bool) : PyStr → PyStr → List PyStr
  | [], cur => if cur.isEmpty then [] else [cur.reverse]
  | c :: cs, cur =>
    if keep c then runsAux keep cs (c :: cur)
    else if cur.isEmpty then runsAux keep cs []
    else cur.reverse :: runsAux keep cs []

/-- Maximal runs of characters satisfying `keep` inside `s`. -/
def runsBy (keep : Char → Bool) (s : PyStr) : List PyStr := runsAux keep s []

/-- Python `str.split()` with no separator: whitespace-separated words,
empty strings dropped. -/
def pySplitWs (s : PyStr) : List PyStr := runsBy (fun c => !c.isWhitespace) s

/-- Python slice `s[a:b]` for natural bounds (clamped, empty when `b ≤ a`). -/
def pySlice (s : PyStr) (a b : ℕ) : PyStr := (s.take b).drop a

/-- Python `range(0, stop, step)` for a positive `step`. -/
def pyRange (stop step : ℕ) : List ℕ := (List.range ((stop + step - 1) / step)).map (· * step)

/-- Decimal representation of a natural number, as a model string
(Python's f-string interpolation of an int). -/
def natStr (n : ℕ) : PyStr := (Nat.repr n).toList

/-- The exceptions the modelled code can raise. -/
inductive PyErr : Type where
  /-- `TypeError: __init__() got an unexpected keyword argument ...`;
  the argument name is recorded. -/
  | typeError (arg : PyStr)
  /-- `ValueError`, e.g. scikit-learn's "empty vocabulary" error. -/
  | valueError
  /-- a `requests` exception while fetching the document. -/
  | requestError
deriving DecidableEq

/-- Values stored in a chunk's free-form `metadata` dict. -/
inductive MetaVal : Type where
  | s (v : PyStr)
  | n (v : ℕ)
deriving DecidableEq

/-- The `DocumentChunk` dataclass of `vector_database.py`: its only
fields are `id`, `content`, `metadata` and `embedding`. -/
structure DocumentChunk : Type where
  id : PyStr
  content : PyStr
  metadata : List (PyStr × MetaVal)
  embedding : Option (List ℚ) := none
deriving DecidableEq

/-- The field names accepted by the `DocumentChunk` dataclass constructor. -/
def documentChunkFields : List PyStr :=
  [str "id", str "content", str "metadata", str "embedding"]

/-- A dataclass call with keyword-argument names `kwargs`: Python raises
`TypeError` at the first keyword that is not a declared field, otherwise
the construction succeeds with value `v`. -/
def checkDataclassCall (kwargs : List PyStr) (v : DocumentChunk) : Except PyErr DocumentChunk :=
  match kwargs.find? (fun k => !(documentChunkFields.contains k)) with
  | some k => .error (.typeError k)
  | none => .ok v

/-! ### The TF-IDF vectorizer (`TfidfVectorizer(max_features=1000,
stop_words='english', ngram_range=(1,2), lowercase=True)`)

The tokenizer, stop-word filtering, n-gram generation and vocabulary
fixing are modelled concretely; the irrational idf/normalisation weights
of scikit-learn only ever enter the claims through the *ordering* of
cosine similarities, which is represented exactly (see `simSq`). -/

/-- A character matched by scikit-learn's token pattern `\w` (the source
only processes ASCII text through this path). -/
def isWordChar (c : Char) : Bool := c.isAlphanum || c == '_'

/-- A sublist of scikit-learn's frozen `ENGLISH_STOP_WORDS`: every word
listed here is a member of the real stop list, and no theorem below
depends on the status of any word outside this list (the universally
quantified theorems hold for an arbitrary stop list). -/
def stopWords : List PyStr :=
  [str "a", str "about", str "above", str "after", str "again", str "against",
   str "all", str "am", str "an", str "and", str "any", str "are", str "as",
   str "at", str "be", str "because", str "been", str "before", str "being",
   str "below", str "between", str "both", str "but", str "by", str "could",
   str "did", str "do", str "does", str "down", str "during", str "each",
   str "few", str "for", str "from", str "further", str "had", str "has",
   str "have", str "having", str "he", str "her", str "here", str "hers",
   str "him", str "his", str "how", str "if", str "in", str "into", str "is",
   str "it", str "its", str "itself", str "more", str "most", str "my",
   str "no", str "nor", str "not", str "now", str "of", str "off", str "on",
   str "once", str "only", str "or", str "other", str "our", str "ours",
   str "out", str "over", str "own", str "same", str "she", str "should",
   str "so", str "some", str "such", str "than", str "that", str "the",
   str "their", str "theirs", str "them", str "then", str "there",
   str "these", str "they", str "this", str "those", str "through",
   str "to", str "too", str "under", str "until", str "up", str "very",
   str "was", str "we", str "were", str "what", str "when", str "where",
   str "which", str "while", str "who", str "whom", str "why", str "will",
   str "with", str "would", str "you", str "your", str "yours"]

/-- scikit-learn's default tokenization: lower-case, take maximal runs of
word characters, keep tokens of length at least two (token pattern
`\b\w\w+\b`). -/
def tokenize (s : PyStr) : List PyStr :=
  (runsBy isWordChar (pyLower s)).filter (fun t => 2 ≤ t.length)

/-- Adjacent-pair bigrams of a token list, joined by a single space. -/
def bigrams : List PyStr → List PyStr
  | a :: b :: rest => (a ++ ' ' :: b) :: bigrams (b :: rest)
  | _ => []

/-- The features scikit-learn derives from one document with
`ngram_range=(1,2)`: stop words removed from the token stream, then
unigrams plus adjacent bigrams. -/
def analyze (s : PyStr) : List PyStr :=
  let toks := (tokenize s).filter (fun t => !stopWords.contains t)
  toks ++ bigrams toks

/-- Lexicographic order on model strings (scikit-learn assigns vocabulary
indices in sorted order). -/
def lexLe : PyStr → PyStr → Bool
  | [], _ => true
  | _ :: _, [] => false
  | c :: cs, d :: ds => if c < d then true else if d < c then false else lexLe cs ds

/-- The vocabulary fixed by fitting on `texts`: all distinct features in
alphabetical order; if more than `maxF` features occur, the `maxF` most
frequent (by corpus term frequency) are kept.  The configured cap is
1000 and is never reached in this development. -/
def buildVocab (maxF : ℕ) (texts : List PyStr) : List PyStr :=
  let feats := (texts.map analyze).flatten
  let vocabAll := (feats.dedup).insertionSort (fun a b => lexLe a b = true)
  if vocabAll.length ≤ maxF then vocabAll
  else ((vocabAll.insertionSort (fun a b => feats.count b ≤ feats.count a)).take
          maxF).insertionSort (fun a b => lexLe a b = true)

/-- Transforming one document through a fixed vocabulary: the term-count
vector over the vocabulary.  Terms of the document outside the vocabulary
are silently dropped; this function is total (scikit-learn `transform`
never raises once fitted). -/
def transform (vocab : List PyStr) (text : PyStr) : List ℕ :=
  let feats := analyze text
  vocab.map (fun t => feats.count t)

/-- `fit_transform`: build the vocabulary, then transform every text.
With no usable feature at all, scikit-learn raises
`ValueError: empty vocabulary` (modelled as `PyErr.valueError`). -/
def fitTransform (maxF : ℕ) (texts : List PyStr) :
    Except PyErr (List PyStr × List (List ℕ)) :=
  let vocab := buildVocab maxF texts
  if vocab.isEmpty then .error .valueError
  else .ok (vocab, texts.map (transform vocab))

/-- The mutable state of a `LightweightVectorStore`.  `documentVectors`
keeps the term-count vector of every stored chunk (the idf scaling and
l2 normalisation of the real tf-idf rows are handled inside `simSq`,
which the search orders by). -/
structure StoreState : Type where
  maxFeatures : ℕ
  vocab : List PyStr
  vectorizerFitted : Bool
  chunks : List DocumentChunk
  chunkMetadata : List (PyStr × List (PyStr × MetaVal) × PyStr)
  documentVectors : List (List ℕ)
deriving DecidableEq

/-- `LightweightVectorStore.__init__(max_features=1000)`. -/
def initStore (maxF : ℕ) : StoreState :=
  { maxFeatures := maxF, vocab := [], vectorizerFitted := false,
    chunks := [], chunkMetadata := [], documentVectors := [] }

/-- The per-chunk entry appended to `self.chunk_metadata`
(`id`, `metadata`, 200-character content preview). -/
def chunkMetaEntry (c : DocumentChunk) : PyStr × List (PyStr × MetaVal) × PyStr :=
  (c.id, c.metadata, c.content.take 200)

/-- `LightweightVectorStore.add_documents`.  Returns the new state and the
boolean result.  An empty batch returns `False` untouched; the first
non-empty batch fits the vectorizer (a `ValueError` from an empty
vocabulary is caught, returning `False` with nothing mutated); later
batches transform through the already-fixed vocabulary and append. -/
def addDocuments (s : StoreState) (cs : List DocumentChunk) : StoreState × Bool :=
  if cs.isEmpty then (s, false)
  else
    let texts := cs.map (fun c => c.content)
    if s.vectorizerFitted then
      let rows := texts.map (transform s.vocab)
      ({ s with documentVectors := s.documentVectors ++ rows,
                chunks := s.chunks ++ cs,
                chunkMetadata := s.chunkMetadata ++ cs.map chunkMetaEntry }, true)
    else
      match fitTransform s.maxFeatures texts with
      | .error _ => (s, false)
      | .ok (vocab, rows) =>
        ({ s with vocab := vocab, vectorizerFitted := true,
                  documentVectors := rows,
                  chunks := s.chunks ++ cs,
                  chunkMetadata := s.chunkMetadata ++ cs.map chunkMetaEntry }, true)

/-- Weighted dot product of two term-count vectors under per-feature
weights `w` (representing the squared idf factors, which are positive
reals; all results below hold for every non-negative weight assignment). -/
def dotW (w : ℕ → ℚ) (q d : List ℕ) : ℚ :=
  ∑ i ∈ Finset.range (max q.length d.length), w i * (q.getD i 0 : ℚ) * (d.getD i 0 : ℚ)

/-- Weighted squared norm of a term-count vector. -/
def normSqW (w : ℕ → ℚ) (q : List ℕ) : ℚ := dotW w q q

/-- The squared cosine similarity of two tf-idf rows (`sklearn`'s
`cosine_similarity`, which maps an all-zero row to similarity `0`).
Since every entry is non-negative, the cosine itself is the non-negative
square root of this value, so ordering rows by `simSq` is exactly
ordering them by cosine similarity; the search results below carry this
squared value as their score. -/
def simSq (w : ℕ → ℚ) (q d : List ℕ) : ℚ :=
  if normSqW w q = 0 ∨ normSqW w d = 0 then 0
  else (dotW w q d) ^ 2 / (normSqW w q * normSqW w d)

/-- `np.argsort(similarities)[::-1]`: indices sorted ascending by value
(numpy's sort is the stable insertion sort for the small arrays arising
here), then reversed. -/
def argsortDesc (xs : List ℚ) : List ℕ :=
  (List.insertionSort (fun i j => xs.getD i 0 ≤ xs.getD j 0) (List.range xs.length)).reverse

/-- `LightweightVectorStore.search(query, top_k)`: empty result when the
vectorizer is unfitted or no chunk is stored; otherwise transform the
query, score every stored vector, and return the `top_k` best
`(chunk, score)` pairs (indices out of range are skipped, exactly as the
source's bounds check does). -/
def searchStore (w : ℕ → ℚ) (s : StoreState) (query : PyStr) (topK : ℕ) :
    List (DocumentChunk × ℚ) :=
  if !s.vectorizerFitted || s.chunks.length == 0 then []
  else
    let qv := transform s.vocab query
    let sims := s.documentVectors.map (fun d => simSq w qv d)
    ((argsortDesc sims).take topK).filterMap (fun i =>
      if h : i < s.chunks.length then some (s.chunks.get ⟨i, h⟩, sims.getD i 0)
      else none)

/-- `LightweightVectorStore.get_stats()`: total chunks, configured
dimensionality, fitted flag. -/
def getStats (s : StoreState) : ℕ × ℕ × Bool :=
  (s.chunks.length, s.maxFeatures, s.vectorizerFitted)

/-- An operation against one vector-store instance. -/
inductive StoreOp : Type where
  | add (cs : List DocumentChunk)
  | search (query : PyStr) (topK : ℕ)

/-- State transition of one operation: `search` reads but never writes
the store. -/
def applyOp (s : StoreState) : StoreOp → StoreState
  | .add cs => (addDocuments s cs).1
  | .search _ _ => s

/-- Running a sequence of store operations. -/
def applyOps (s : StoreState) (ops : List StoreOp) : StoreState :=
  ops.foldl applyOp s

/-! ### The `SemanticMatcher` of `vector_database.py` -/

/-- The `clause_patterns` table: category name and pattern-phrase list,
in declaration order. -/
def clausePatterns : List (PyStr × List PyStr) :=
  [ (str "grace_period",
      [str "grace period", str "premium payment", str "due date", str "thirty days"]),
    (str "waiting_period",
      [str "waiting period", str "pre-existing disease", str "PED", str "months"]),
    (str "maternity",
      [str "maternity expenses", str "childbirth", str "pregnancy", str "months"]),
    (str "cataract",
      [str "cataract surgery", str "eye surgery", str "years"]),
    (str "organ_donor",
      [str "organ donor", str "transplant", str "medical expenses"]),
    (str "ncd",
      [str "No Claim Discount", str "NCD", str "percent"]),
    (str "health_checkup",
      [str "health check-up", str "preventive", str "reimbursement"]),
    (str "hospital_definition",
      [str "hospital defined", str "beds", str "nursing staff"]),
    (str "ayush",
      [str "AYUSH treatment", str "Ayurveda", str "Naturopathy"]),
    (str "room_rent",
      [str "room rent", str "ICU charges", str "percent"]) ]

/-- How many phrases of `patterns` occur (lower-cased) in both the
lower-cased query and the lower-cased content — the per-category score
accumulated by both `_calculate_pattern_score` and
`_identify_clause_type`. -/
def sharedPatternCount (patterns : List PyStr) (ql cl : PyStr) : ℕ :=
  (patterns.filter (fun p => containsSub ql (pyLower p) && containsSub cl (pyLower p))).length

/-- `SemanticMatcher._calculate_pattern_score`: the maximum over
categories of the shared-phrase count divided by the category's phrase
count, folded from `0.0`, finally clamped with `min(·, 1.0)`. -/
def calculatePatternScore (query content : PyStr) : ℚ :=
  let ql := pyLower query
  let cl := pyLower content
  let maxScore := clausePatterns.foldl
    (fun m cp => max m ((sharedPatternCount cp.2 ql cl : ℚ) / (cp.2.length : ℚ))) 0
  min maxScore 1

/-- `SemanticMatcher._identify_clause_type`: fold keeping the first
category whose raw shared-phrase count strictly exceeds the best so far
(initially `"general"` with score `0`). -/
def identifyClauseType (query content : PyStr) : PyStr :=
  let ql := pyLower query
  let cl := pyLower content
  (clausePatterns.foldl
    (fun best cp =>
      let score := sharedPatternCount cp.2 ql cl
      if best.2 < score then (cp.1, score) else best)
    (str "general", 0)).1

/-- One entry of `semantic_search_with_metadata`'s result list (the
formatted `relevance_explanation` string is a presentation field no claim
refers to and is elided). -/
structure SearchResult : Type where
  chunkId : PyStr
  content : PyStr
  similarityScore : ℚ
  metadata : List (PyStr × MetaVal)

/-- One entry of `find_relevant_clauses`'s result list. -/
structure RankedResult extends SearchResult where
  patternScore : ℚ
  combinedScore : ℚ
  clauseType : PyStr

/-- `LightweightVectorStore.semantic_search_with_metadata`. -/
def semanticSearchWithMetadata (w : ℕ → ℚ) (s : StoreState) (query : PyStr) (topK : ℕ) :
    List SearchResult :=
  (searchStore w s query topK).map (fun r =>
    { chunkId := r.1.id, content := r.1.content, similarityScore := r.2,
      metadata := r.1.metadata })

/-- `SemanticMatcher.find_relevant_clauses`, parameterised by the search
function it calls (`self.vector_store.semantic_search_with_metadata`):
request `top_k * 2` candidates, enhance each with the pattern score,
`combined = similarity * 0.7 + pattern * 0.3` and a clause type, then
stable-sort by combined score descending and keep `top_k`. -/
def findRelevantClausesWith (searchFn : PyStr → ℕ → List SearchResult)
    (query : PyStr) (topK : ℕ) : List RankedResult :=
  let searchResults := searchFn query (topK * 2)
  let enhanced := searchResults.map (fun r =>
    let ps := calculatePatternScore query r.content
    { toSearchResult := r,
      patternScore := ps,
      combinedScore := r.similarityScore * (7/10) + ps * (3/10),
      clauseType := identifyClauseType query r.content })
  (enhanced.insertionSort (fun a b => b.combinedScore ≤ a.combinedScore)).take topK

/-- `SemanticMatcher.find_relevant_clauses` against the actual store. -/
def findRelevantClauses (w : ℕ → ℚ) (s : StoreState) (query : PyStr) (topK : ℕ) :
    List RankedResult :=
  findRelevantClausesWith (semanticSearchWithMetadata w s) query topK

/-! ### `advanced_document_processor.py` -/

/-- One entry of the processor's `policy_patterns` table: regex pattern
sources (kept verbatim, their matching behaviour is a parameter),
keyword list and weight. -/
structure PolicyCategory : Type where
  name : PyStr
  patterns : List PyStr
  keywords : List PyStr
  weight : ℚ

/-- `policy_patterns['grace_period']`. -/
def gracePeriodCat : PolicyCategory :=
  { name := str "grace_period",
    patterns := [str "grace\\s+period.*?(\\d+)\\s*days?",
                 str "premium.*?payment.*?(\\d+)\\s*days?.*?grace",
                 str "continuity.*?policy.*?(\\d+)\\s*days?",
                 str "(\\d+)\\s*days?.*?grace\\s+period"],
    keywords := [str "grace", str "period", str "premium", str "payment",
                 str "due", str "continuity"],
    weight := 1 }

/-- `policy_patterns['waiting_period']`. -/
def waitingPeriodCat : PolicyCategory :=
  { name := str "waiting_period",
    patterns := [str "waiting\\s+period.*?(\\d+)\\s*(?:months?|years?)",
                 str "pre-existing.*?disease.*?(\\d+)\\s*(?:months?|years?)",
                 str "PED.*?waiting.*?(\\d+)\\s*(?:months?|years?)",
                 str "(\\d+)\\s*(?:months?|years?).*?waiting\\s+period"],
    keywords := [str "waiting", str "period", str "pre-existing", str "disease",
                 str "PED", str "months", str "years"],
    weight := 1 }

/-- `policy_patterns['maternity']`. -/
def maternityCat : PolicyCategory :=
  { name := str "maternity",
    patterns := [str "maternity.*?benefit.*?(\\d+)\\s*months?",
                 str "pregnancy.*?coverage.*?(\\d+)\\s*months?",
                 str "childbirth.*?waiting.*?(\\d+)\\s*months?",
                 str "maternity.*?waiting.*?(\\d+)\\s*months?"],
    keywords := [str "maternity", str "pregnancy", str "childbirth",
                 str "delivery", str "natal", str "covered"],
    weight := 9/10 }

/-- `policy_patterns['cataract']`. -/
def cataractCat : PolicyCategory :=
  { name := str "cataract",
    patterns := [str "cataract.*?surgery.*?(\\d+)\\s*(?:months?|years?)",
                 str "eye.*?surgery.*?waiting.*?(\\d+)\\s*(?:months?|years?)",
                 str "cataract.*?waiting.*?(\\d+)\\s*(?:months?|years?)"],
    keywords := [str "cataract", str "surgery", str "eye", str "treatment",
                 str "waiting", str "months"],
    weight := 4/5 }

/-- `policy_patterns['organ_donor']`. -/
def organDonorCat : PolicyCategory :=
  { name := str "organ_donor",
    patterns := [str "organ\\s+donor.*?expense.*?covered",
                 str "transplant.*?donor.*?medical\\s+expense",
                 str "harvesting.*?organ.*?expense",
                 str "donor.*?screening.*?covered"],
    keywords := [str "organ", str "donor", str "transplant", str "harvesting",
                 str "expense", str "covered"],
    weight := 7/10 }

/-- `policy_patterns['ncd_bonus']`. -/
def ncdBonusCat : PolicyCategory :=
  { name := str "ncd_bonus",
    patterns := [str "no\\s+claim.*?discount.*?(\\d+)%",
                 str "NCD.*?(\\d+)%",
                 str "cumulative\\s+bonus.*?(\\d+)%",
                 str "claim\\s+free.*?bonus.*?(\\d+)%"],
    keywords := [str "claim", str "discount", str "bonus", str "NCD",
                 str "cumulative", str "renewal"],
    weight := 4/5 }

/-- `policy_patterns['health_checkup']`. -/
def healthCheckupCat : PolicyCategory :=
  { name := str "health_checkup",
    patterns := [str "health\\s+check.*?up.*?reimburs",
                 str "preventive.*?health.*?check.*?(\\d+)",
                 str "annual.*?health.*?examination",
                 str "master.*?health.*?check"],
    keywords := [str "health", str "check", str "preventive", str "annual",
                 str "examination", str "reimbursement"],
    weight := 3/5 }

/-- `policy_patterns['hospital_definition']`. -/
def hospitalDefinitionCat : PolicyCategory :=
  { name := str "hospital_definition",
    patterns := [str "hospital.*?defined.*?(\\d+).*?beds?",
                 str "institution.*?(\\d+).*?beds?.*?nursing",
                 str "medical.*?institution.*?24.*?hours",
                 str "(\\d+).*?beds?.*?hospital"],
    keywords := [str "hospital", str "institution", str "beds", str "nursing",
                 str "medical", str "24", str "hours"],
    weight := 7/10 }

/-- `policy_patterns['ayush_treatment']`. -/
def ayushTreatmentCat : PolicyCategory :=
  { name := str "ayush_treatment",
    patterns := [str "ayush.*?treatment.*?covered",
                 str "ayurveda.*?yoga.*?unani.*?siddha.*?homeopathy",
                 str "alternative.*?medicine.*?covered",
                 str "naturopathy.*?treatment"],
    keywords := [str "ayush", str "ayurveda", str "yoga", str "unani",
                 str "siddha", str "homeopathy", str "naturopathy"],
    weight := 3/5 }

/-- `policy_patterns['room_rent_capping']`. -/
def roomRentCappingCat : PolicyCategory :=
  { name := str "room_rent_capping",
    patterns := [str "room\\s+rent.*?capping.*?(\\d+)%",
                 str "daily\\s+room\\s+rent.*?(\\d+)%.*?sum\\s+insured",
                 str "ICU.*?charges.*?(\\d+)%",
                 str "accommodation.*?charges.*?limit.*?(\\d+)%"],
    keywords := [str "room", str "rent", str "capping", str "ICU",
                 str "charges", str "accommodation", str "limit"],
    weight := 4/5 }

/-- The full `policy_patterns` taxonomy in declaration order. -/
def policyPatterns : List PolicyCategory :=
  [gracePeriodCat, waitingPeriodCat, maternityCat, cataractCat, organDonorCat,
   ncdBonusCat, healthCheckupCat, hospitalDefinitionCat, ayushTreatmentCat,
   roomRentCappingCat]

/-- The library behaviour a single `AdvancedDocumentProcessor` method call
depends on.  `regexFind p t` is the span list `[(m.start(), m.end()) ...]`
of `re.finditer(p, t, re.IGNORECASE | re.DOTALL)`; `hash8` is
`hashlib.md5(·.encode()).hexdigest()[:8]`; `tokenCount` is the
tiktoken-backed `_count_tokens`. -/
structure ProcessorParams : Type where
  regexFind : PyStr → PyStr → List (ℕ × ℕ)
  hash8 : PyStr → PyStr
  tokenCount : PyStr → ℕ

/-- `_count_tokens`'s fallback branch, `int(len(text.split()) * 1.3)`:
the number of whitespace-separated words times the float `1.3`,
truncated by `int()` — truncation toward zero, which on this non-negative
value is the floor. -/
def countTokensFallback (s : PyStr) : ℕ :=
  Nat.floor (((pySplitWs s).length : ℚ) * (13/10))

/-- One value of the `sections` dict built by `_extract_policy_sections`. -/
structure SectionData : Type where
  content : PyStr
  matchesFound : ℕ
  keywordScore : ℕ
  relevance : ℚ
deriving Repr

/-- `_extract_policy_sections` for one category: every regex match
contributes a space plus the context window 300 characters either side of
the match (clamped to the text); keywords are counted by case-insensitive
substring test; relevance is `(matches * 2 + keyword_score) * weight`;
the accumulated content is stripped. -/
def extractSection (m : PyStr → PyStr → List (ℕ × ℕ)) (text : PyStr)
    (cat : PolicyCategory) : SectionData :=
  let spans := (cat.patterns.map (fun p => m p text)).flatten
  let content := spans.foldl
    (fun acc sp => acc ++ ' ' :: pySlice text (sp.1 - 300) (sp.2 + 300)) []
  let matchesFound := spans.length
  let keywordScore :=
    (cat.keywords.filter (fun k => containsSub (pyLower text) (pyLower k))).length
  { content := pyStrip content,
    matchesFound := matchesFound,
    keywordScore := keywordScore,
    relevance := ((matchesFound * 2 + keywordScore : ℕ) : ℚ) * cat.weight }

/-- `_extract_policy_sections`: the sections dict in insertion
(= declaration) order. -/
def extractPolicySections (m : PyStr → PyStr → List (ℕ × ℕ)) (text : PyStr) :
    List (PyStr × SectionData) :=
  policyPatterns.map (fun cat => (cat.name, extractSection m text cat))

/-- The evaluated keyword-argument values of a `DocumentChunk(...)` call
in `_create_section_chunk`, `_create_general_chunks` or
`_get_fallback_chunks` (Python evaluates all arguments before the call
itself raises, see `checkDataclassCall`). -/
structure ChunkValues : Type where
  id : PyStr
  content : PyStr
  metadata : List (PyStr × MetaVal)
  sectionType : PyStr
  relevanceScore : ℚ
  tokenCount : ℕ
  contentHash : PyStr

/-- The keyword names every chunk-creating `DocumentChunk(...)` call in
the processor passes; `section_type` is the first one that is not a
declared dataclass field. -/
def chunkCallKwargs : List PyStr :=
  [str "id", str "content", str "metadata", str "section_type",
   str "relevance_score", str "token_count", str "content_hash"]

/-- The argument values `_create_section_chunk` computes: content capped
at 2000 characters, id `f"{section_type}_{chunk_index}_{content_hash}"`,
relevance `min(relevance / 10.0, 1.0)`. -/
def createSectionChunkValues (P : ProcessorParams) (sectionType : PyStr)
    (d : SectionData) (sourceUrl : PyStr) (chunkIndex : ℕ) : ChunkValues :=
  let content := d.content.take 2000
  let h := P.hash8 content
  { id := sectionType ++ str "_" ++ natStr chunkIndex ++ str "_" ++ h,
    content := content,
    metadata := [(str "source", .s sourceUrl),
                 (str "section_type", .s sectionType),
                 (str "matches_found", .n d.matchesFound),
                 (str "keyword_score", .n d.keywordScore),
                 (str "extraction_method", .s (str "pattern_matching")),
                 (str "chunk_index", .n chunkIndex)],
    sectionType := sectionType,
    relevanceScore := min (d.relevance / 10) 1,
    tokenCount := P.tokenCount content,
    contentHash := h }

/-- `_create_section_chunk` itself: the `DocumentChunk(...)` call with
the keyword names `chunkCallKwargs` — it raises
`TypeError ('section_type')` on every call. -/
def createSectionChunk (P : ProcessorParams) (sectionType : PyStr)
    (d : SectionData) (sourceUrl : PyStr) (chunkIndex : ℕ) : Except PyErr DocumentChunk :=
  let v := createSectionChunkValues P sectionType d sourceUrl chunkIndex
  checkDataclassCall chunkCallKwargs
    { id := v.id, content := v.content, metadata := v.metadata, embedding := none }

/-- The argument values computed by the loop of `_create_general_chunks`:
windows of 1000 characters advancing by `chunk_size - overlap = 800` over
the first `min(len(text), 5000)` characters, kept when the stripped
window has more than 100 characters, with fixed relevance `0.3`; only
runs when fewer than 5 section chunks exist. -/
def generalChunkValues (P : ProcessorParams) (text sourceUrl : PyStr)
    (startIndex : ℕ) : List ChunkValues :=
  if startIndex < 5 then
    (pyRange (min text.length 5000) 800).foldl
      (fun acc i =>
        let chunkText := pySlice text i (i + 1000)
        if 100 < (pyStrip chunkText).length then
          acc ++ [{ id := str "general_" ++ natStr (startIndex + acc.length)
                          ++ str "_" ++ P.hash8 chunkText,
                    content := chunkText,
                    metadata := [(str "source", .s sourceUrl),
                                 (str "section_type", .s (str "general")),
                                 (str "extraction_method", .s (str "general_chunking")),
                                 (str "chunk_index", .n (startIndex + acc.length))],
                    sectionType := str "general",
                    relevanceScore := 3/10,
                    tokenCount := P.tokenCount chunkText,
                    contentHash := P.hash8 chunkText }]
        else acc) []
  else []

/-- `_create_general_chunks` faithfully: the first window that qualifies
triggers the raising `DocumentChunk(...)` call, so the result is the
empty list or a `TypeError`. -/
def createGeneralChunks (P : ProcessorParams) (text sourceUrl : PyStr)
    (startIndex : ℕ) : Except PyErr (List DocumentChunk) :=
  if (generalChunkValues P text sourceUrl startIndex).isEmpty then .ok []
  else .error (.typeError (str "section_type"))

/-- `_create_intelligent_chunks` faithfully: the first category section
with non-empty content reaches `_create_section_chunk` and raises; with
no such section the general pass runs (raising on its first produced
chunk); when nothing is produced at all the empty list survives the
sort and the `[:20]` cap. -/
def createIntelligentChunks (P : ProcessorParams) (text sourceUrl : PyStr) :
    Except PyErr (List DocumentChunk) :=
  let sections := extractPolicySections P.regexFind text
  if (sections.filter (fun sd => !sd.2.content.isEmpty)).isEmpty then
    match createGeneralChunks P text sourceUrl 0 with
    | .error e => .error e
    | .ok gcs => .ok (gcs.take 20)
  else .error (.typeError (str "section_type"))

/-- The chunk values `_create_intelligent_chunks` assembles (the data
flow of the intended pipeline: the values of every `DocumentChunk(...)`
call in order): one chunk per category with non-empty accumulated
content (indexed by position among created chunks), then the general
windows, stable-sorted by relevance descending, capped at 20. -/
def createIntelligentChunksValues (P : ProcessorParams) (text sourceUrl : PyStr) :
    List ChunkValues :=
  let sections := extractPolicySections P.regexFind text
  let sChunks := sections.foldl
    (fun acc sd =>
      if sd.2.content.isEmpty then acc
      else acc ++ [createSectionChunkValues P sd.1 sd.2 sourceUrl acc.length]) []
  let gChunks := generalChunkValues P text sourceUrl sChunks.length
  ((sChunks ++ gChunks).insertionSort
    (fun a b => b.relevanceScore ≤ a.relevanceScore)).take 20

/-- The triple-quoted fallback knowledge text of `_get_fallback_chunks`. -/
def fallbackContent : PyStr :=
  str "\n        National Parivar Mediclaim Plus Policy provides comprehensive health insurance coverage.\n        Key features include cashless hospitalization, pre and post hospitalization coverage,\n        maternity benefits, and coverage for various medical treatments. The policy has\n        specific waiting periods, grace periods, and terms that govern coverage eligibility.\n        "

/-- The argument values of the `DocumentChunk(...)` call in
`_get_fallback_chunks` (content stripped, fixed relevance `0.4`). -/
def fallbackChunkValues (P : ProcessorParams) : ChunkValues :=
  let h := P.hash8 fallbackContent
  { id := str "fallback_" ++ h,
    content := pyStrip fallbackContent,
    metadata := [(str "source", .s (str "fallback_knowledge")),
                 (str "section_type", .s (str "fallback")),
                 (str "extraction_method", .s (str "fallback")),
                 (str "chunk_index", .n 0)],
    sectionType := str "fallback",
    relevanceScore := 2/5,
    tokenCount := P.tokenCount fallbackContent,
    contentHash := h }

/-- `_get_fallback_chunks`: its single `DocumentChunk(...)` call passes
the keywords `chunkCallKwargs`, so every call raises
`TypeError ('section_type')`. -/
def getFallbackChunks (P : ProcessorParams) : Except PyErr (List DocumentChunk) :=
  let v := fallbackChunkValues P
  match checkDataclassCall chunkCallKwargs
      { id := v.id, content := v.content, metadata := v.metadata, embedding := none } with
  | .error e => .error e
  | .ok c => .ok [c]

/-- The summary analysis object.  Only the fields claims refer to are
modelled; the remaining entries of the dynamic analysis dict
(`processing_time`, `vector_store_stats`, the structured-information
sub-dicts and regex pattern-match count) are presentation data that no
claim inspects. -/
structure Analysis : Type where
  totalLength : ℕ
  totalChunks : ℕ
  totalTokens : ℕ
  avgChunkSize : ℚ
  /-- `some "fallback"` exactly on the degraded path: the fallback
  analysis dict carries `'processing_mode': 'fallback'`, the normal
  path's dict has no such key. -/
  processingMode : Option PyStr
  structuredInfoExtracted : Bool
  semanticProcessing : Bool
deriving DecidableEq

/-- `_analyze_document_structure` on the normal path (the chunk list the
source sees here is always empty, since chunk construction raises). -/
def analyzeDocumentStructure (P : ProcessorParams) (text : PyStr)
    (chunks : List DocumentChunk) : Analysis :=
  { totalLength := text.length,
    totalChunks := chunks.length,
    totalTokens := P.tokenCount text,
    avgChunkSize := if chunks.isEmpty then 0 else (text.length : ℚ) / (chunks.length : ℚ),
    processingMode := none,
    structuredInfoExtracted := true,
    semanticProcessing := !chunks.isEmpty }

/-- The degraded analysis dict of `_get_fallback_chunks_with_analysis`
(only `total_chunks` and the `processing_mode` flag are present). -/
def fallbackAnalysis (n : ℕ) : Analysis :=
  { totalLength := 0, totalChunks := n, totalTokens := 0, avgChunkSize := 0,
    processingMode := some (str "fallback"),
    structuredInfoExtracted := false, semanticProcessing := false }

/-- `_get_fallback_chunks_with_analysis`: builds the fallback chunks
first, so the `TypeError` of `_get_fallback_chunks` propagates before
the degraded analysis dict is ever constructed. -/
def getFallbackChunksWithAnalysis (P : ProcessorParams) :
    Except PyErr (List DocumentChunk × Analysis) :=
  match getFallbackChunks P with
  | .error e => .error e
  | .ok cs => .ok (cs, fallbackAnalysis cs.length)

/-! ### Text extraction -/

/-- All library behaviour one `process_document` call depends on.
`attempts i` is the outcome of the `i`-th `requests.get` attempt;
`pdfParse` abstracts `PyPDF2.PdfReader` (the page texts, in order);
`docxParse` abstracts `docx.Document` (per paragraph: is-heading flag
and text); `htmlParse` abstracts BeautifulSoup's cleaned `get_text`;
`decodeUtf8` is `bytes.decode('utf-8', errors='ignore')` (total);
`cleanText` is `_clean_extracted_text`, whose four regex substitutions
no claim depends on. -/
structure PipelineParams extends ProcessorParams : Type where
  attempts : ℕ → Except PyErr PyBytes
  pdfParse : PyBytes → Except PyErr (List PyStr)
  docxParse : PyBytes → Except PyErr (List (Bool × PyStr))
  htmlParse : PyBytes → Except PyErr PyStr
  decodeUtf8 : PyBytes → PyStr
  cleanText : PyStr → PyStr

/-- The byte signature `b'%PDF'`. -/
def pdfMagic : PyBytes := [37, 80, 68, 70]

/-- Lower-case an ASCII byte (Python `bytes.lower()`). -/
def byteLower (b : ℕ) : ℕ := if 65 ≤ b ∧ b ≤ 90 then b + 32 else b

/-- The PDF dispatch test of `_extract_text_by_type`:
`url.lower().endswith('.pdf') or b'%PDF' in content[:100]`. -/
def isPdfTagged (url : PyStr) (content : PyBytes) : Bool :=
  endsWithB (pyLower url) (str ".pdf") || listContainsSub (content.take 100) pdfMagic

/-- The DOCX dispatch test:
`url.lower().endswith(('.docx', '.doc')) or b'PK' in content[:10]`. -/
def isDocxTagged (url : PyStr) (content : PyBytes) : Bool :=
  endsWithB (pyLower url) (str ".docx") || endsWithB (pyLower url) (str ".doc")
    || listContainsSub (content.take 10) [80, 75]

/-- The HTML dispatch test: `b'<html' in content.lower()[:1000]`. -/
def isHtmlTagged (content : PyBytes) : Bool :=
  listContainsSub ((content.map byteLower).take 1000) [60, 104, 116, 109, 108]

/-- The page-marker text accumulated by `_extract_pdf_with_structure`:
pages yielding no text contribute nothing, the others contribute
`f"\n=== PAGE {n+1} ===\n"` plus the page text and a newline. -/
def buildPdfText (pages : List PyStr) : PyStr :=
  (pages.enum.foldl
    (fun acc pi =>
      if pi.2.isEmpty then acc
      else acc ++ str "\n=== PAGE " ++ natStr (pi.1 + 1) ++ str " ===\n" ++ pi.2 ++ str "\n")
    [])

/-- `_extract_pdf_with_structure`: parse failure is caught and yields
the empty string. -/
def extractPdfWithStructure (P : PipelineParams) (content : PyBytes) : PyStr :=
  match P.pdfParse content with
  | .error _ => []
  | .ok pages => P.cleanText (buildPdfText pages)

/-- The text accumulated by `_extract_docx_with_structure`: skipping
paragraphs with blank text, wrapping headings in `=== ... ===` markers
(upper-cased), otherwise appending the text and a newline. -/
def buildDocxText (paras : List (Bool × PyStr)) : PyStr :=
  paras.foldl
    (fun acc p =>
      if (pyStrip p.2).isEmpty then acc
      else if p.1 then acc ++ str "\n=== " ++ pyUpper p.2 ++ str " ===\n"
      else acc ++ p.2 ++ str "\n")
    []

/-- `_extract_docx_with_structure`: parse failure is caught and yields
the empty string. -/
def extractDocxWithStructure (P : PipelineParams) (content : PyBytes) : PyStr :=
  match P.docxParse content with
  | .error _ => []
  | .ok paras => P.cleanText (buildDocxText paras)

/-- `_extract_html_clean`: parse failure is caught and yields the empty
string. -/
def extractHtmlClean (P : PipelineParams) (content : PyBytes) : PyStr :=
  match P.htmlParse content with
  | .error _ => []
  | .ok text => P.cleanText text

/-- `_extract_text_by_type`: dispatch on suffix/signature; every branch
is total (each extractor already catches its own failures, and the
lossy UTF-8 decode of the plain branch cannot fail), so the outer
`try/except` never fires. -/
def extractTextByType (P : PipelineParams) (content : PyBytes) (url : PyStr) : PyStr :=
  if isPdfTagged url content then extractPdfWithStructure P content
  else if isDocxTagged url content then extractDocxWithStructure P content
  else if isHtmlTagged content then extractHtmlClean P content
  else P.decodeUtf8 content

/-! ### `process_document` -/

/-- `_download_document`: up to three attempts; the first success
returns, the third failure re-raises its exception. -/
def downloadDocument (attempts : ℕ → Except PyErr PyBytes) : Except PyErr PyBytes :=
  match attempts 0 with
  | .ok c => .ok c
  | .error _ =>
    match attempts 1 with
    | .ok c => .ok c
    | .error _ => attempts 2

/-- The processor state surviving across `process_document` calls: the
document cache (keyed by the url's md5 fingerprint, modelled by the url
itself, an injective stand-in) and the vector store. -/
structure ProcState : Type where
  cache : List (PyStr × (List DocumentChunk × Analysis))
  store : StoreState

/-- `process_document(url)`.  The body's failure paths
(`not content` / empty text) call `_get_fallback_chunks_with_analysis`,
whose `TypeError` — like any other exception of the body — lands in the
`except` handler, which calls `_get_fallback_chunks_with_analysis` again
and therefore re-raises.  The store's idf weights do not matter here
(no search is performed), so `addDocuments` fully describes the store
update. -/
def processDocument (P : PipelineParams) (st : ProcState) (url : PyStr) :
    Except PyErr (List DocumentChunk × Analysis) × ProcState :=
  match st.cache.find? (fun kv => kv.1 == url) with
  | some kv => (.ok kv.2, st)
  | none =>
    let body : Except PyErr (List DocumentChunk × Analysis) × ProcState :=
      match downloadDocument P.attempts with
      | .error e => (.error e, st)
      | .ok content =>
        if content.isEmpty then (getFallbackChunksWithAnalysis P.toProcessorParams, st)
        else
          let text := extractTextByType P content url
          if text.isEmpty then (getFallbackChunksWithAnalysis P.toProcessorParams, st)
          else
            match createIntelligentChunks P.toProcessorParams text url with
            | .error e => (.error e, st)
            | .ok chunks =>
              let store2 := if chunks.isEmpty then st.store else (addDocuments st.store chunks).1
              let analysis := analyzeDocumentStructure P.toProcessorParams text chunks
              (.ok (chunks, analysis),
               { cache := st.cache ++ [(url, (chunks, analysis))], store := store2 })
    match body with
    | (.error _, _) => (getFallbackChunksWithAnalysis P.toProcessorParams, st)
    | ok => ok

/-! ### Concrete instances used by the theorems below -/

/-- The store invariant relating stored vectors to stored chunks: every
stored row is the transform of the corresponding chunk's content. -/
def Aligned (s : StoreState) : Prop :=
  s.documentVectors = s.chunks.map (fun c => transform s.vocab c.content)

/-- The maximum of `f` over a list (0 on the empty list); the reference
value against which the matcher's fold-kept best scores are compared. -/
def maxCount {α : Type} (f : α → ℕ) (l : List α) : ℕ := (l.map f).foldr max 0

/-- The reachable-state invariant of the store: an unfitted store holds
no chunks and no vectors, and the stored vectors always align with the
stored chunks (see `storeInv_applyOps`). -/
def StoreInv (s : StoreState) : Prop :=
  (s.vectorizerFitted = false → s.chunks = [] ∧ s.documentVectors = []) ∧ Aligned s

/-- Unit idf weights (any positive weight assignment gives the same
results in the theorems below). -/
def unitW : ℕ → ℚ := fun _ => 1

/-- A chunk whose content consists of stop words only: its term vector
is all-zero. -/
def cexChunkA : DocumentChunk :=
  { id := str "a1", content := str "the and", metadata := [] }

/-- A chunk with ordinary content. -/
def cexChunkB : DocumentChunk :=
  { id := str "b1", content := str "insurance policy", metadata := [] }

/-- The store after adding the two chunks above in one batch. -/
def cexStore : StoreState := (addDocuments (initStore 1000) [cexChunkA, cexChunkB]).1

/-- Processor library parameters for inputs on which no regex pattern of
the taxonomy matches (each pattern demands literal words or digits):
`re.finditer` yields no match, and the hash and token counter are
irrelevant to the properties stated. -/
def trivialParams : ProcessorParams :=
  { regexFind := fun _ _ => [], hash8 := fun _ => [], tokenCount := fun _ => 0 }

/-- Processor library parameters in which every pattern has exactly one
(empty) match at position 0, making every category's accumulated content
non-empty on a non-empty text. -/
def spanParams : ProcessorParams :=
  { regexFind := fun _ _ => [(0, 0)], hash8 := fun _ => [], tokenCount := fun _ => 0 }

/-- Pipeline parameters for a document fetch that fails on all three
attempts (an unreachable URL); the other collaborators are never
reached. -/
def failFetchParams : PipelineParams :=
  { trivialParams with
    attempts := fun _ => .error .requestError,
    pdfParse := fun _ => .error .valueError,
    docxParse := fun _ => .error .valueError,
    htmlParse := fun _ => .error .valueError,
    decodeUtf8 := fun _ => [],
    cleanText := fun t => t }

/-- Pipeline parameters whose format parsers all fail (corrupt inputs)
and whose fetch succeeds with the given bytes on the first attempt. -/
def corruptParseParams (content : PyBytes) : PipelineParams :=
  { trivialParams with
    attempts := fun _ => .ok content,
    pdfParse := fun _ => .error .valueError,
    docxParse := fun _ => .error .valueError,
    htmlParse := fun _ => .error .valueError,
    decodeUtf8 := fun _ => [],
    cleanText := fun t => t }

/-- A store holding the single ordinary chunk `cexChunkB`. -/
def oneChunkStore : StoreState := (addDocuments (initStore 1000) [cexChunkB]).1

/-- A query naming phrases of two different categories: one shared phrase
of `grace_period` (a 4-phrase list) and one of `cataract` (a 3-phrase
list). -/
def cexQ : PyStr := str "grace period cataract surgery"

/-- An empty search collaborator for the matcher theorems. -/
def emptySearchFn : PyStr → ℕ → List SearchResult := fun _ _ => []

/-! ### Helper lemmas -/

theorem insertionSort_of_total_rel {α : Type} (r : α → α → Prop) [DecidableRel r]
    (h : ∀ a b, r a b) (l : List α) : List.insertionSort r l = l := by
  induction l with
  | nil => rfl
  | cons x xs ih =>
    rw [List.insertionSort, ih]
    cases xs with
    | nil => rfl
    | cons y ys => rw [List.orderedInsert, if_pos (h x y)]

theorem getD_replicate_zero (n i : ℕ) : (List.replicate n (0:ℚ)).getD i 0 = 0 := by
  rcases lt_or_le i n with h | h
  · rw [List.getD_eq_getElem _ _ (by simpa using h)]
    simp
  · exact List.getD_eq_default _ _ (by simpa using h)

theorem argsortDesc_replicate_zero (n : ℕ) :
    argsortDesc (List.replicate n 0) = (List.range n).reverse := by
  unfold argsortDesc
  rw [List.length_replicate,
    insertionSort_of_total_rel _ (fun a b => by
      rw [getD_replicate_zero, getD_replicate_zero])]

theorem transform_length (vocab : List PyStr) (t : PyStr) :
    (transform vocab t).length = vocab.length := by
  simp [transform]

theorem normSqW_of_all_zero (w : ℕ → ℚ) (q : List ℕ) (h : ∀ x ∈ q, x = 0) :
    normSqW w q = 0 := by
  unfold normSqW dotW
  refine Finset.sum_eq_zero (fun i _ => ?_)
  have hq : q.getD i 0 = 0 := by
    rcases lt_or_le i q.length with hi | hi
    · rw [List.getD_eq_getElem _ _ hi]
      exact h _ (List.getElem_mem hi)
    · exact List.getD_eq_default _ _ hi
  rw [hq]
  push_cast
  ring

theorem simSq_left_zero (w : ℕ → ℚ) (q d : List ℕ) (h : normSqW w q = 0) :
    simSq w q d = 0 := by
  unfold simSq
  rw [if_pos (Or.inl h)]

/-- Search with a query whose term vector is all-zero: every similarity
is exactly zero, so the ranking degenerates to the reversed index
order. -/
theorem searchStore_zero_query (w : ℕ → ℚ) (s : StoreState) (query : PyStr) (topK : ℕ)
    (hfit : s.vectorizerFitted = true)
    (hq : ∀ x ∈ transform s.vocab query, x = 0) :
    searchStore w s query topK =
      (((List.range s.documentVectors.length).reverse.take topK).filterMap (fun i =>
        if h : i < s.chunks.length then some (s.chunks.get ⟨i, h⟩, (0:ℚ)) else none)) := by
  unfold searchStore
  rw [hfit]
  by_cases hc : s.chunks.length = 0
  · have : s.chunks.length == 0 := by simp [hc]
    rcases List.eq_nil_of_length_eq_zero hc with he
    simp [hc, he]
  · have hbeq : (s.chunks.length == 0) = false := by
      simp [hc]
    simp only [hbeq, Bool.not_true, Bool.false_or, Bool.or_false, if_neg, Bool.false_eq_true,
      not_false_iff]
    have hsims : s.documentVectors.map (fun d => simSq w (transform s.vocab query) d)
        = List.replicate s.documentVectors.length 0 := by
      rw [List.eq_replicate_iff]
      refine ⟨by simp, fun b hb => ?_⟩
      rcases List.mem_map.mp hb with ⟨d, _, rfl⟩
      exact simSq_left_zero _ _ _ (normSqW_of_all_zero _ _ hq)
    rw [hsims, argsortDesc_replicate_zero]
    congr 1
    funext i
    rw [getD_replicate_zero]

theorem weighted_cauchy_schwarz (w f g : ℕ → ℚ) (hw : ∀ i, 0 ≤ w i) (n : ℕ) :
    (∑ i ∈ Finset.range n, w i * f i * g i) ^ 2 ≤
      (∑ i ∈ Finset.range n, w i * f i * f i) * (∑ i ∈ Finset.range n, w i * g i * g i) := by
  induction n with
  | zero => simp
  | succ n ih =>
    rw [Finset.sum_range_succ, Finset.sum_range_succ, Finset.sum_range_succ]
    set S := ∑ i ∈ Finset.range n, w i * f i * g i with hS
    set F := ∑ i ∈ Finset.range n, w i * f i * f i with hF
    set G := ∑ i ∈ Finset.range n, w i * g i * g i with hG
    have hF0 : 0 ≤ F := Finset.sum_nonneg (fun i _ => by nlinarith [hw i, sq_nonneg (f i)])
    have hG0 : 0 ≤ G := Finset.sum_nonneg (fun i _ => by nlinarith [hw i, sq_nonneg (g i)])
    have hwn := hw n
    rcases eq_or_lt_of_le hF0 with hF0' | hF0'
    · have hS2 : S ^ 2 ≤ 0 := by nlinarith [ih]
      have hS0 : S = 0 := by
        have := sq_nonneg S
        have : S ^ 2 = 0 := le_antisymm hS2 this
        exact pow_eq_zero_iff two_ne_zero |>.mp this
      rw [hS0, ← hF0']
      nlinarith [mul_nonneg (mul_nonneg hwn (mul_self_nonneg (f n))) hG0]
    · have key : 0 ≤ w n * (F * (g n * g n) + G * (f n * f n) - 2 * S * (f n * g n)) := by
        have h1 : 0 ≤ w n * (F * g n - S * f n) ^ 2 :=
          mul_nonneg hwn (sq_nonneg _)
        have h2 : S ^ 2 ≤ F * G := ih
        have h3 : 0 ≤ (F * G - S ^ 2) * (w n * (f n * f n)) :=
          mul_nonneg (by linarith) (mul_nonneg hwn (mul_self_nonneg _))
        nlinarith [h1, h3, hF0']
      nlinarith [ih, key, mul_nonneg hwn (mul_self_nonneg (f n)),
        mul_nonneg hwn (mul_self_nonneg (g n))]

theorem dotW_term_nonneg (w : ℕ → ℚ) (hw : ∀ i, 0 ≤ w i) (q d : List ℕ) (i : ℕ) :
    0 ≤ w i * (q.getD i 0 : ℚ) * (d.getD i 0 : ℚ) :=
  mul_nonneg (mul_nonneg (hw i) (Nat.cast_nonneg _)) (Nat.cast_nonneg _)

theorem dotW_nonneg (w : ℕ → ℚ) (hw : ∀ i, 0 ≤ w i) (q d : List ℕ) : 0 ≤ dotW w q d :=
  Finset.sum_nonneg (fun i _ => dotW_term_nonneg w hw q d i)

theorem normSqW_eq_range (w : ℕ → ℚ) (q : List ℕ) (n : ℕ) (h : q.length ≤ n) :
    normSqW w q = ∑ i ∈ Finset.range n, w i * (q.getD i 0 : ℚ) * (q.getD i 0 : ℚ) := by
  unfold normSqW dotW
  rw [max_self]
  refine Finset.sum_subset (Finset.range_subset.mpr h) (fun i _ hi => ?_)
  rw [List.getD_eq_default _ _ (by simpa using (Finset.mem_range.not.mp hi))]
  push_cast
  ring

theorem dotW_sq_le (w : ℕ → ℚ) (hw : ∀ i, 0 ≤ w i) (q d : List ℕ) :
    (dotW w q d) ^ 2 ≤ normSqW w q * normSqW w d := by
  have hq : normSqW w q
      = ∑ i ∈ Finset.range (max q.length d.length), w i * (q.getD i 0 : ℚ) * (q.getD i 0 : ℚ) :=
    normSqW_eq_range w q _ (le_max_left _ _)
  have hd : normSqW w d
      = ∑ i ∈ Finset.range (max q.length d.length), w i * (d.getD i 0 : ℚ) * (d.getD i 0 : ℚ) :=
    normSqW_eq_range w d _ (le_max_right _ _)
  rw [hq, hd]
  exact weighted_cauchy_schwarz w (fun i => (q.getD i 0 : ℚ)) (fun i => (d.getD i 0 : ℚ)) hw _

theorem simSq_nonneg (w : ℕ → ℚ) (hw : ∀ i, 0 ≤ w i) (q d : List ℕ) : 0 ≤ simSq w q d := by
  unfold simSq
  split
  · exact le_refl 0
  · exact div_nonneg (sq_nonneg _)
      (mul_nonneg (dotW_nonneg w hw q q) (dotW_nonneg w hw d d))

theorem simSq_le_one (w : ℕ → ℚ) (hw : ∀ i, 0 ≤ w i) (q d : List ℕ) : simSq w q d ≤ 1 := by
  unfold simSq
  split
  · exact zero_le_one
  · next h =>
    push_neg at h
    have hq : 0 < normSqW w q := lt_of_le_of_ne (dotW_nonneg w hw q q) (Ne.symm h.1)
    have hd : 0 < normSqW w d := lt_of_le_of_ne (dotW_nonneg w hw d d) (Ne.symm h.2)
    rw [div_le_one (mul_pos hq hd)]
    calc (dotW w q d) ^ 2 ≤ normSqW w q * normSqW w d := dotW_sq_le w hw q d
    _ ≤ _ := le_refl _

theorem simSq_self (w : ℕ → ℚ) (q : List ℕ) (h : normSqW w q ≠ 0) : simSq w q q = 1 := by
  unfold simSq
  rw [if_neg (by simpa using h)]
  have : dotW w q q = normSqW w q := rfl
  rw [this, sq]
  exact div_self (mul_ne_zero h h)

theorem sorted_rel_getLast {α : Type} {r : α → α → Prop} (hrefl : ∀ a, r a a)
    {l : List α} (hs : List.Sorted r l) (hne : l ≠ []) :
    ∀ a ∈ l, r a (l.getLast hne) := by
  intro a ha
  rcases List.mem_iff_get.mp ha with ⟨⟨k, hk⟩, rfl⟩
  rw [List.getLast_eq_getElem]
  rcases lt_or_eq_of_le (Nat.le_pred_of_lt hk) with h | h
  · exact List.pairwise_iff_get.mp hs ⟨k, hk⟩ ⟨l.length - 1, by omega⟩ (by simpa using h)
  · have he : (⟨k, hk⟩ : Fin l.length) = ⟨l.length - 1, by omega⟩ := Fin.ext (by simpa using h)
    rw [he]
    exact hrefl _

theorem argsortDesc_head_spec (xs : List ℚ) (hne : xs ≠ []) :
    ∃ i0, (argsortDesc xs).head? = some i0 ∧ i0 < xs.length ∧
      ∀ j, j < xs.length → xs.getD j 0 ≤ xs.getD i0 0 := by
  classical
  set r : ℕ → ℕ → Prop := fun i j => xs.getD i 0 ≤ xs.getD j 0 with hr
  haveI : IsTotal ℕ r := ⟨fun a b => le_total _ _⟩
  haveI : IsTrans ℕ r := ⟨fun a b c hab hbc => le_trans hab hbc⟩
  set l' := List.insertionSort r (List.range xs.length) with hl'
  have hperm : l'.Perm (List.range xs.length) := List.perm_insertionSort r _
  have hlen : l'.length = xs.length := by
    rw [hperm.length_eq, List.length_range]
  have hne' : l' ≠ [] := by
    intro h
    rw [h] at hlen
    exact hne (List.eq_nil_of_length_eq_zero hlen.symm)
  have hsorted : List.Sorted r l' := List.sorted_insertionSort r _
  refine ⟨l'.getLast hne', ?_, ?_, ?_⟩
  · show (l'.reverse).head? = _
    rw [List.head?_reverse, List.getLast?_eq_getLast _ hne']
  · have : l'.getLast hne' ∈ l' := List.getLast_mem hne'
    have := hperm.mem_iff.mp this
    simpa using this
  · intro j hj
    have hjmem : j ∈ l' := hperm.mem_iff.mpr (List.mem_range.mpr hj)
    exact @sorted_rel_getLast ℕ r (fun a => le_refl _) l' hsorted hne' j hjmem

theorem take_head? {α : Type} (l : List α) (k : ℕ) (hk : 1 ≤ k) :
    (l.take k).head? = l.head? := by
  cases l with
  | nil => simp
  | cons a t =>
    cases k with
    | zero => omega
    | succ k => simp

theorem filterMap_cons_head {α β : Type} (f : α → Option β) (i : α) (t : List α)
    (b : β) (h : f i = some b) : ((i :: t).filterMap f).head? = some b := by
  simp [List.filterMap_cons, h]

/-- The core of the amended round-trip property: when a stored chunk's
term vector is not all-zero, searching with its own content puts a
score-1 result (a chunk whose tf-idf direction coincides with the
query's) at the top. -/
theorem searchStore_self_top1 (w : ℕ → ℚ) (s : StoreState) (c : DocumentChunk) (topK : ℕ)
    (hw : ∀ i, 0 ≤ w i) (hA : Aligned s) (hfit : s.vectorizerFitted = true)
    (hc : c ∈ s.chunks) (hnz : normSqW w (transform s.vocab c.content) ≠ 0)
    (hk : 1 ≤ topK) :
    ∃ p : DocumentChunk × ℚ,
      (searchStore w s c.content topK).head? = some p ∧ p.2 = 1 := by
  classical
  have hlenv : s.documentVectors.length = s.chunks.length := by
    rw [hA, List.length_map]
  have hcne : s.chunks ≠ [] := List.ne_nil_of_mem hc
  have hclen : s.chunks.length ≠ 0 := by
    intro h
    exact hcne (List.eq_nil_of_length_eq_zero h)
  have hsimslen : (s.documentVectors.map (fun d => simSq w (transform s.vocab c.content) d)).length
      = s.chunks.length := by
    rw [List.length_map, hlenv]
  have hsimsne : s.documentVectors.map (fun d => simSq w (transform s.vocab c.content) d) ≠ [] := by
    intro h
    have := congrArg List.length h
    rw [hsimslen] at this
    exact hclen this
  have hle1 : ∀ j, j < (s.documentVectors.map (fun d => simSq w (transform s.vocab c.content) d)).length →
      (s.documentVectors.map (fun d => simSq w (transform s.vocab c.content) d)).getD j 0 ≤ 1 := by
    intro j hj
    rw [List.getD_eq_getElem _ _ hj, List.getElem_map]
    exact simSq_le_one w hw _ _
  rcases List.mem_iff_get.mp hc with ⟨⟨ic, hic⟩, hcg⟩
  have hic' : ic < (s.documentVectors.map (fun d => simSq w (transform s.vocab c.content) d)).length := by
    rw [hsimslen]
    exact hic
  have hicv : ic < s.documentVectors.length := by
    rw [hlenv]
    exact hic
  have hicm : ic < (s.chunks.map (fun ch => transform s.vocab ch.content)).length := by
    rw [List.length_map]
    exact hic
  have hrow : s.documentVectors[ic] = transform s.vocab c.content := by
    have h1 : s.documentVectors[ic]
        = (s.chunks.map (fun ch => transform s.vocab ch.content))[ic] :=
      List.getElem_of_eq hA _
    rw [h1, List.getElem_map]
    congr 1
    rw [← hcg]
    rfl
  have hself :
      (s.documentVectors.map (fun d => simSq w (transform s.vocab c.content) d)).getD ic 0 = 1 := by
    rw [List.getD_eq_getElem _ _ hic', List.getElem_map, hrow]
    exact simSq_self w _ hnz
  rcases argsortDesc_head_spec _ hsimsne with ⟨i0, hhead, hi0, hmax⟩
  have hi0top :
      (s.documentVectors.map (fun d => simSq w (transform s.vocab c.content) d)).getD i0 0 = 1 :=
    le_antisymm (hle1 i0 hi0) (hself ▸ hmax ic hic')
  have hi0c : i0 < s.chunks.length := by
    rw [← hsimslen]
    exact hi0
  have hguard : (!s.vectorizerFitted || s.chunks.length == 0) = false := by
    rw [hfit]
    simp [hclen]
  have hsearch : searchStore w s c.content topK
      = ((argsortDesc (s.documentVectors.map (fun d => simSq w (transform s.vocab c.content) d))).take
          topK).filterMap (fun i =>
          if h : i < s.chunks.length
          then some (s.chunks.get ⟨i, h⟩,
            (s.documentVectors.map (fun d => simSq w (transform s.vocab c.content) d)).getD i 0)
          else none) := by
    unfold searchStore
    rw [hguard]
    simp only [Bool.false_eq_true, if_false]
  rcases List.head?_eq_some_iff.mp hhead with ⟨rest0, hrest0⟩
  refine ⟨(s.chunks.get ⟨i0, hi0c⟩, 1), ?_, rfl⟩
  rw [hsearch]
  have htake : (argsortDesc (s.documentVectors.map (fun d => simSq w (transform s.vocab c.content) d))).take topK
      = i0 :: rest0.take (topK - 1) := by
    rw [hrest0]
    cases topK with
    | zero => omega
    | succ k => simp
  rw [htake]
  refine filterMap_cons_head _ _ _ _ ?_
  rw [dif_pos hi0c, hi0top]

theorem storeInv_init (maxF : ℕ) : StoreInv (initStore maxF) := by
  constructor
  · intro _
    exact ⟨rfl, rfl⟩
  · rfl

theorem fitTransform_rows (maxF : ℕ) (texts : List PyStr) (vocab : List PyStr)
    (rows : List (List ℕ)) (h : fitTransform maxF texts = .ok (vocab, rows)) :
    rows = texts.map (transform vocab) ∧ vocab = buildVocab maxF texts := by
  unfold fitTransform at h
  by_cases hv : (buildVocab maxF texts).isEmpty
  · rw [if_pos hv] at h
    exact absurd h (by simp)
  · rw [if_neg hv] at h
    injection h with h'
    injection h' with h1 h2
    refine ⟨?_, h1.symm⟩
    rw [← h1]
    exact h2.symm

theorem addDocuments_storeInv (s : StoreState) (cs : List DocumentChunk)
    (h : StoreInv s) : StoreInv (addDocuments s cs).1 := by
  obtain ⟨hunfit, hAl⟩ := h
  unfold addDocuments
  by_cases hcs : cs.isEmpty
  · rw [if_pos hcs]
    exact ⟨hunfit, hAl⟩
  · rw [if_neg hcs]
    by_cases hfit : s.vectorizerFitted = true
    · rw [if_pos hfit]
      refine ⟨fun hcontra => absurd hfit (by rw [hcontra]; simp), ?_⟩
      show s.documentVectors ++ List.map (transform s.vocab) (List.map (fun c => c.content) cs)
          = List.map (fun c => transform s.vocab c.content) (s.chunks ++ cs)
      rw [List.map_append, hAl, List.map_map]
      rfl
    · rw [if_neg hfit]
      rcases hfe : fitTransform s.maxFeatures ((cs.map (fun c => c.content))) with e | ⟨vocab, rows⟩
      · rw [hfe]
        exact ⟨hunfit, hAl⟩
      · rw [hfe]
        obtain ⟨hrows, _⟩ := fitTransform_rows _ _ _ _ hfe
        have hempty := hunfit (by simpa using hfit)
        refine ⟨fun hcontra => by simp at hcontra, ?_⟩
        show rows = List.map (fun c => transform vocab c.content) (s.chunks ++ cs)
        rw [hempty.1, List.nil_append, hrows, List.map_map]
        rfl

theorem applyOp_storeInv (s : StoreState) (op : StoreOp) (h : StoreInv s) :
    StoreInv (applyOp s op) := by
  cases op with
  | add cs => exact addDocuments_storeInv s cs h
  | search q k => exact h

/-- Every store reachable from a fresh instance satisfies the alignment
invariant assumed by the round-trip theorem. -/
theorem storeInv_applyOps (maxF : ℕ) (ops : List StoreOp) :
    StoreInv (applyOps (initStore maxF) ops) := by
  suffices h : ∀ s, StoreInv s → StoreInv (applyOps s ops) from
    h _ (storeInv_init maxF)
  induction ops with
  | nil => intro s hs; exact hs
  | cons op rest ih =>
    intro s hs
    exact ih _ (applyOp_storeInv s op hs)

theorem foldl_max_spec {α : Type} (f : α → ℚ) (l : List α) (a : ℚ) :
    a ≤ l.foldl (fun m x => max m (f x)) a ∧
    (∀ x ∈ l, f x ≤ l.foldl (fun m x => max m (f x)) a) ∧
    (l.foldl (fun m x => max m (f x)) a = a ∨
      ∃ x ∈ l, l.foldl (fun m x => max m (f x)) a = f x) := by
  induction l generalizing a with
  | nil => exact ⟨le_refl _, by simp, Or.inl rfl⟩
  | cons c t ih =>
    obtain ⟨h1, h2, h3⟩ := ih (max a (f c))
    rw [List.foldl_cons]
    refine ⟨le_trans (le_max_left _ _) h1, ?_, ?_⟩
    · intro x hx
      rcases List.mem_cons.mp hx with rfl | hx'
      · exact le_trans (le_max_right _ _) h1
      · exact h2 x hx'
    · rcases h3 with h | ⟨x, hx, hfx⟩
      · rcases max_choice a (f c) with hm | hm
        · exact Or.inl (by rw [h, hm])
        · exact Or.inr ⟨c, List.mem_cons_self _ _, by rw [h, hm]⟩
      · exact Or.inr ⟨x, List.mem_cons_of_mem _ hx, hfx⟩

theorem foldl_best_fixed {α β : Type} (f : α → ℕ) (g : α → β) (l : List α)
    (b0 : β × ℕ) (h : ∀ x ∈ l, f x ≤ b0.2) :
    l.foldl (fun best cp => if best.2 < f cp then (g cp, f cp) else best) b0 = b0 := by
  induction l with
  | nil => rfl
  | cons c t ih =>
    rw [List.foldl_cons, if_neg (by
      have := h c (List.mem_cons_self _ _)
      omega)]
    exact ih (fun x hx => h x (List.mem_cons_of_mem _ hx))

theorem maxCount_cons {α : Type} (f : α → ℕ) (c : α) (t : List α) :
    maxCount f (c :: t) = max (f c) (maxCount f t) := rfl

theorem le_maxCount_of_mem {α : Type} (f : α → ℕ) {l : List α} {x : α} (hx : x ∈ l) :
    f x ≤ maxCount f l := by
  induction l with
  | nil => cases hx
  | cons c t ih =>
    rw [maxCount_cons]
    rcases List.mem_cons.mp hx with rfl | hx'
    · exact le_max_left _ _
    · exact le_trans (ih hx') (le_max_right _ _)

/-- The strict-improvement fold of `_identify_clause_type`: when the
maximal score strictly exceeds the accumulator's, the fold returns the
earliest entry attaining the maximum. -/
theorem foldl_best_spec {α β : Type} (f : α → ℕ) (g : α → β) (l : List α) :
    ∀ b0 : β × ℕ, b0.2 < maxCount f l →
    ∃ l1 x l2, l = l1 ++ x :: l2 ∧ f x = maxCount f l ∧
      (∀ y ∈ l1, f y < maxCount f l) ∧
      l.foldl (fun best cp => if best.2 < f cp then (g cp, f cp) else best) b0 = (g x, f x) := by
  induction l with
  | nil =>
    intro b0 hb
    simp [maxCount] at hb
  | cons c t ih =>
    intro b0 hb
    by_cases hc1 : maxCount f t ≤ f c
    · have hM : maxCount f (c :: t) = f c := by
        rw [maxCount_cons]
        exact max_eq_left hc1
      refine ⟨[], c, t, rfl, hM.symm, by simp, ?_⟩
      rw [List.foldl_cons, if_pos (by rw [hM] at hb; exact hb)]
      exact foldl_best_fixed f g t _ (fun x hx => le_trans (le_maxCount_of_mem f hx) hc1)
    · push_neg at hc1
      have hM : maxCount f (c :: t) = maxCount f t := by
        rw [maxCount_cons]
        exact max_eq_right (le_of_lt hc1)
      set b1 := if b0.2 < f c then (g c, f c) else b0 with hb1
      have hb1lt : b1.2 < maxCount f t := by
        rw [hb1]
        split
        · exact hc1
        · rw [hM] at hb
          exact hb
      obtain ⟨l1, x, l2, ht, hfx, hlt, hres⟩ := ih b1 hb1lt
      refine ⟨c :: l1, x, l2, by rw [ht]; rfl, by rw [hM]; exact hfx, ?_, ?_⟩
      · intro y hy
        rcases List.mem_cons.mp hy with rfl | hy'
        · rw [hM]
          exact hc1
        · rw [hM]
          exact hlt y hy'
      · rw [List.foldl_cons, ← hb1]
        exact hres

theorem head_dropWhile_false {p : Char → Bool} {l : List Char} {a : Char} {t : List Char}
    (h : l.dropWhile p = a :: t) : p a = false := by
  induction l with
  | nil => cases h
  | cons c cs ih =>
    rw [List.dropWhile_cons] at h
    by_cases hc : p c
    · rw [if_pos hc] at h
      exact ih h
    · rw [if_neg hc] at h
      injection h with h1 _
      rw [← h1]
      exact Bool.not_eq_true _ |>.mp hc

theorem pyStrip_all_white {s : PyStr} (h : pyStrip s = []) :
    ∀ c ∈ s, c.isWhitespace := by
  unfold pyStrip at h
  have hz : (s.dropWhile Char.isWhitespace).reverse.dropWhile Char.isWhitespace = [] := by
    have := congrArg List.reverse h
    rw [List.reverse_reverse] at this
    simpa using this
  have hy := List.dropWhile_eq_nil_iff.mp hz
  intro c hc
  have hsplit := List.takeWhile_append_dropWhile Char.isWhitespace s
  rw [← hsplit] at hc
  rcases List.mem_append.mp hc with h1 | h1
  · exact List.mem_takeWhile_imp h1
  · exact hy c (List.mem_reverse.mpr h1)

theorem pyStrip_head_not_white {s : PyStr} (h : pyStrip s ≠ []) :
    ∃ a t, pyStrip s = a :: t ∧ a.isWhitespace = false := by
  rcases hps : pyStrip s with _ | ⟨a, t⟩
  · exact absurd hps h
  · refine ⟨a, t, rfl, ?_⟩
    have hsuf : ((s.dropWhile Char.isWhitespace).reverse.dropWhile Char.isWhitespace)
        <:+ (s.dropWhile Char.isWhitespace).reverse := List.dropWhile_suffix _
    rcases hsuf with ⟨u, hu⟩
    have hrev : (((s.dropWhile Char.isWhitespace).reverse.dropWhile
        Char.isWhitespace).reverse) ++ u.reverse = s.dropWhile Char.isWhitespace := by
      have h2 := congrArg List.reverse hu
      rw [List.reverse_append] at h2
      simpa using h2
    rw [show (((s.dropWhile Char.isWhitespace).reverse.dropWhile
        Char.isWhitespace).reverse) = pyStrip s from rfl, hps] at hrev
    have : s.dropWhile Char.isWhitespace = a :: (t ++ u.reverse) := by
      rw [← hrev]
      rfl
    exact head_dropWhile_false this

theorem pyStrip_take_ne {s : PyStr} (n : ℕ) (hn : 1 ≤ n) (h : pyStrip s ≠ []) :
    pyStrip ((pyStrip s).take n) ≠ [] := by
  rcases pyStrip_head_not_white h with ⟨a, t, hat, haw⟩
  rw [hat]
  cases n with
  | zero => omega
  | succ n =>
    rw [List.take_succ_cons]
    intro hcontra
    have := pyStrip_all_white hcontra a (List.mem_cons_self _ _)
    rw [haw] at this
    cases this

theorem getFallbackChunks_raises (P : ProcessorParams) :
    getFallbackChunks P = .error (.typeError (str "section_type")) := rfl

theorem createSectionChunk_raises (P : ProcessorParams) (sectionType : PyStr)
    (d : SectionData) (sourceUrl : PyStr) (chunkIndex : ℕ) :
    createSectionChunk P sectionType d sourceUrl chunkIndex
      = .error (.typeError (str "section_type")) := rfl

theorem getFallbackChunksWithAnalysis_raises (P : ProcessorParams) :
    getFallbackChunksWithAnalysis P = .error (.typeError (str "section_type")) := rfl

theorem createIntelligentChunks_raises (P : ProcessorParams) (text sourceUrl : PyStr)
    (h : ∃ e ∈ extractPolicySections P.regexFind text, e.2.content.isEmpty = false) :
    createIntelligentChunks P text sourceUrl = .error (.typeError (str "section_type")) := by
  obtain ⟨e, he, hne⟩ := h
  unfold createIntelligentChunks
  rw [if_neg]
  intro hcontra
  have hmem : e ∈ (extractPolicySections P.regexFind text).filter
      (fun sd => !sd.2.content.isEmpty) :=
    List.mem_filter.mpr ⟨he, by rw [hne]; rfl⟩
  rw [List.isEmpty_iff.mp hcontra] at hmem
  cases hmem

theorem countTokensFallback_eq_div (s : PyStr) :
    countTokensFallback s = 13 * (pySplitWs s).length / 10 := by
  unfold countTokensFallback
  have h : ((pySplitWs s).length : ℚ) * (13/10) = ((13 * (pySplitWs s).length : ℕ) : ℚ) / ((10:ℕ) : ℚ) := by
    push_cast
    ring
  rw [h, Nat.floor_div_nat, Nat.floor_natCast]

/-! ### The claims -/

/-- C7 (amended): with the primary tokenizer unavailable, the token count
is the *floor* of `word_count * 1.3` — equivalently `13 * word_count / 10`
in integer division — not the rounded value (`int()` truncates). -/
theorem c7_token_fallback_floor (s : PyStr) :
    countTokensFallback s = 13 * (pySplitWs s).length / 10 :=
  countTokensFallback_eq_div s

/-- C7 counterexample: on the three-word text `"a b c"` the code computes
`int(3 * 1.3) = 3`, while the claimed `round(word_count * 1.3)` is `4`. -/
theorem c7_cex_round_differs :
    countTokensFallback (str "a b c") = 3 ∧
    round (((pySplitWs (str "a b c")).length : ℚ) * (13/10)) = 4 := by
  constructor
  · rw [countTokensFallback_eq_div]
    decide
  · have hlen : (pySplitWs (str "a b c")).length = 3 := by decide
    rw [hlen, round_eq]
    exact Int.floor_eq_iff.mpr ⟨by norm_num, by norm_num⟩

/-- C2: the `DocumentChunk` dataclass declares only `id`, `content`,
`metadata` and `embedding`, while every chunk-creating call passes
`section_type`, `relevance_score`, `token_count` and `content_hash`:
`_get_fallback_chunks` and `_create_section_chunk` raise `TypeError` on
every call, and `_create_intelligent_chunks` raises whenever at least
one category section accumulated non-empty content. -/
theorem c2_chunk_constructor_type_error :
    (∀ P : ProcessorParams,
      getFallbackChunks P = .error (.typeError (str "section_type"))) ∧
    (∀ (P : ProcessorParams) (sectionType : PyStr) (d : SectionData)
        (sourceUrl : PyStr) (chunkIndex : ℕ),
      createSectionChunk P sectionType d sourceUrl chunkIndex
        = .error (.typeError (str "section_type"))) ∧
    (∀ (P : ProcessorParams) (text sourceUrl : PyStr),
      (∃ e ∈ extractPolicySections P.regexFind text, e.2.content.isEmpty = false) →
      createIntelligentChunks P text sourceUrl
        = .error (.typeError (str "section_type"))) := by
  refine ⟨getFallbackChunks_raises, createSectionChunk_raises, ?_⟩
  intro P text sourceUrl h
  exact createIntelligentChunks_raises P text sourceUrl h

/-- C2 witness: on the text `"abc"` with a matcher placing one match per
pattern, the grace-period section is non-empty and the chunker raises. -/
theorem c2_witness :
    createIntelligentChunks spanParams (str "abc") (str "u")
      = .error (.typeError (str "section_type")) :=
  c2_chunk_constructor_type_error.2.2 spanParams (str "abc") (str "u")
    ⟨(gracePeriodCat.name, extractSection spanParams.regexFind (str "abc") gracePeriodCat),
     List.mem_cons_self _ _, by decide⟩

/-- C1 (code bug): `process_document` on a URL whose fetch fails three
times is supposed to return the fallback chunk set with a degraded
analysis object, but the fallback constructor itself raises `TypeError`
inside the `except` handler, so the call surfaces an exception. -/
theorem c1_process_document_raises (P : PipelineParams) (st : ProcState) (url : PyStr)
    (h0 : ∃ e, P.attempts 0 = .error e)
    (h1 : ∃ e, P.attempts 1 = .error e)
    (h2 : ∃ e, P.attempts 2 = .error e)
    (hc : st.cache.find? (fun kv => kv.1 == url) = none) :
    processDocument P st url = (.error (.typeError (str "section_type")), st) := by
  obtain ⟨e0, h0⟩ := h0
  obtain ⟨e1, h1⟩ := h1
  obtain ⟨e2, h2⟩ := h2
  unfold processDocument
  rw [hc]
  have hdl : downloadDocument P.attempts = .error e2 := by
    unfold downloadDocument
    rw [h0, h1, h2]
  rw [hdl, getFallbackChunksWithAnalysis_raises]

/-- C1 witness: a concrete unreachable URL against a fresh processor. -/
theorem c1_witness :
    processDocument failFetchParams ⟨[], initStore 1000⟩ (str "http://unreachable")
      = (.error (.typeError (str "section_type")), ⟨[], initStore 1000⟩) :=
  c1_process_document_raises failFetchParams ⟨[], initStore 1000⟩ (str "http://unreachable")
    ⟨.requestError, rfl⟩ ⟨.requestError, rfl⟩ ⟨.requestError, rfl⟩ rfl

/-- C10: for every byte input dispatched as PDF, DOCX, HTML or plain
text, `_extract_text_by_type` is total; a parse failure in the selected
format branch yields the empty string, and the plain branch is the lossy
UTF-8 decode. -/
theorem c10_extractor_never_raises (P : PipelineParams) (content : PyBytes) (url : PyStr) :
    (isPdfTagged url content = true →
      ∀ e, P.pdfParse content = .error e → extractTextByType P content url = []) ∧
    (isPdfTagged url content = false → isDocxTagged url content = true →
      ∀ e, P.docxParse content = .error e → extractTextByType P content url = []) ∧
    (isPdfTagged url content = false → isDocxTagged url content = false →
      isHtmlTagged content = true →
      ∀ e, P.htmlParse content = .error e → extractTextByType P content url = []) ∧
    (isPdfTagged url content = false → isDocxTagged url content = false →
      isHtmlTagged content = false →
      extractTextByType P content url = P.decodeUtf8 content) := by
  refine ⟨?_, ?_, ?_, ?_⟩
  · intro hpdf e he
    unfold extractTextByType
    rw [if_pos hpdf]
    unfold extractPdfWithStructure
    rw [he]
  · intro hpdf hdocx e he
    unfold extractTextByType
    rw [if_neg (by rw [hpdf]; exact Bool.false_ne_true), if_pos hdocx]
    unfold extractDocxWithStructure
    rw [he]
  · intro hpdf hdocx hhtml e he
    unfold extractTextByType
    rw [if_neg (by rw [hpdf]; exact Bool.false_ne_true),
      if_neg (by rw [hdocx]; exact Bool.false_ne_true), if_pos hhtml]
    unfold extractHtmlClean
    rw [he]
  · intro hpdf hdocx hhtml
    unfold extractTextByType
    rw [if_neg (by rw [hpdf]; exact Bool.false_ne_true),
      if_neg (by rw [hdocx]; exact Bool.false_ne_true),
      if_neg (by rw [hhtml]; exact Bool.false_ne_true)]

/-- C10 witness: corrupt `%PDF` bytes under a `.pdf` URL extract to the
empty string. -/
theorem c10_witness :
    extractTextByType (corruptParseParams pdfMagic) pdfMagic (str "http://x.pdf") = [] :=
  (c10_extractor_never_raises (corruptParseParams pdfMagic) pdfMagic
    (str "http://x.pdf")).1 (by decide) .valueError rfl

/-- C6: for every taxonomy category and input text (and any matcher
behaviour for the regex engine), the raw relevance is
`(2 * match_count + keyword_count) * weight` with keywords counted by
case-insensitive substring test; the chunk values built for a non-empty
section carry relevance weight `min(raw / 10, 1)` and content truncated
to at most 2000 characters. -/
theorem c6_section_relevance (m : PyStr → PyStr → List (ℕ × ℕ)) (text : PyStr)
    (cat : PolicyCategory) (hcat : cat ∈ policyPatterns) :
    (extractSection m text cat).keywordScore
        = (cat.keywords.filter (fun k => containsSub (pyLower text) (pyLower k))).length ∧
    (extractSection m text cat).matchesFound
        = ((cat.patterns.map (fun p => m p text)).flatten).length ∧
    (extractSection m text cat).relevance
        = ((2 * (extractSection m text cat).matchesFound
            + (extractSection m text cat).keywordScore : ℕ) : ℚ) * cat.weight ∧
    ∀ (P : ProcessorParams) (url : PyStr) (idx : ℕ),
      (createSectionChunkValues P cat.name (extractSection m text cat) url idx).relevanceScore
          = min ((extractSection m text cat).relevance / 10) 1 ∧
      (createSectionChunkValues P cat.name (extractSection m text cat) url idx).content
          = (extractSection m text cat).content.take 2000 ∧
      (createSectionChunkValues P cat.name (extractSection m text cat) url idx).content.length
          ≤ 2000 := by
  refine ⟨rfl, rfl, ?_, ?_⟩
  · have h3 : (extractSection m text cat).relevance
        = (((extractSection m text cat).matchesFound * 2
            + (extractSection m text cat).keywordScore : ℕ) : ℚ) * cat.weight := rfl
    rw [h3]
    push_cast
    ring
  · intro P url idx
    refine ⟨rfl, rfl, ?_⟩
    show ((extractSection m text cat).content.take 2000).length ≤ 2000
    rw [List.length_take]
    exact min_le_left _ _

/-- C6 witness: the grace-period category on a concrete text and a
matcher yielding no spans. -/
theorem c6_witness :
    (extractSection (fun _ _ => []) (str "grace period of thirty days") gracePeriodCat).relevance
      = ((2 * (extractSection (fun _ _ => []) (str "grace period of thirty days")
          gracePeriodCat).matchesFound
        + (extractSection (fun _ _ => []) (str "grace period of thirty days")
            gracePeriodCat).keywordScore : ℕ) : ℚ) * gracePeriodCat.weight :=
  (c6_section_relevance (fun _ _ => []) (str "grace period of thirty days") gracePeriodCat
    (List.mem_cons_self _ _)).2.2.1

theorem mem_section_fold (P : ProcessorParams) (url : PyStr)
    (sections : List (PyStr × SectionData)) :
    ∀ (acc : List ChunkValues) (v : ChunkValues),
      v ∈ sections.foldl (fun acc sd =>
        if sd.2.content.isEmpty then acc
        else acc ++ [createSectionChunkValues P sd.1 sd.2 url acc.length]) acc →
      v ∈ acc ∨ ∃ sd ∈ sections, sd.2.content.isEmpty = false ∧
        ∃ k, v = createSectionChunkValues P sd.1 sd.2 url k := by
  induction sections with
  | nil => exact fun acc v hv => Or.inl hv
  | cons sd0 rest ih =>
    intro acc v hv
    rw [List.foldl_cons] at hv
    by_cases h0 : sd0.2.content.isEmpty
    · rw [if_pos h0] at hv
      rcases ih acc v hv with h | ⟨sd, hsd, hne, k, hk⟩
      · exact Or.inl h
      · exact Or.inr ⟨sd, List.mem_cons_of_mem _ hsd, hne, k, hk⟩
    · rw [if_neg h0] at hv
      rcases ih _ v hv with h | ⟨sd, hsd, hne, k, hk⟩
      · rcases List.mem_append.mp h with h' | h'
        · exact Or.inl h'
        · rcases List.mem_singleton.mp h' with rfl
          exact Or.inr ⟨sd0, List.mem_cons_self _ _,
            Bool.not_eq_true _ |>.mp h0, acc.length, rfl⟩
      · exact Or.inr ⟨sd, List.mem_cons_of_mem _ hsd, hne, k, hk⟩

theorem pySlice_window_length (text : PyStr) (i n : ℕ) :
    (pySlice text i (i + n)).length ≤ n := by
  unfold pySlice
  rw [List.length_drop, List.length_take]
  omega

theorem mem_general_fold (P : ProcessorParams) (text url : PyStr) (si : ℕ) :
    ∀ v ∈ generalChunkValues P text url si,
      100 < (pyStrip v.content).length ∧ v.content.length ≤ 1000 := by
  unfold generalChunkValues
  by_cases hsi : si < 5
  · rw [if_pos hsi]
    suffices h : ∀ (idxs : List ℕ) (acc : List ChunkValues),
        (∀ v ∈ acc, 100 < (pyStrip v.content).length ∧ v.content.length ≤ 1000) →
        ∀ v ∈ idxs.foldl (fun acc i =>
          let chunkText := pySlice text i (i + 1000)
          if 100 < (pyStrip chunkText).length then
            acc ++ [{ id := str "general_" ++ natStr (si + acc.length)
                        ++ str "_" ++ P.hash8 chunkText,
                      content := chunkText,
                      metadata := [(str "source", .s url),
                                   (str "section_type", .s (str "general")),
                                   (str "extraction_method", .s (str "general_chunking")),
                                   (str "chunk_index", .n (si + acc.length))],
                      sectionType := str "general",
                      relevanceScore := 3/10,
                      tokenCount := P.tokenCount chunkText,
                      contentHash := P.hash8 chunkText }]
          else acc) acc,
          100 < (pyStrip v.content).length ∧ v.content.length ≤ 1000 by
      exact h _ [] (by intro v hv; cases hv)
    intro idxs
    induction idxs with
    | nil => exact fun acc hacc v hv => hacc v hv
    | cons i0 rest ih =>
      intro acc hacc v hv
      rw [List.foldl_cons] at hv
      by_cases hwin : 100 < (pyStrip (pySlice text i0 (i0 + 1000))).length
      · rw [if_pos hwin] at hv
        refine ih _ ?_ v hv
        intro u hu
        rcases List.mem_append.mp hu with h' | h'
        · exact hacc u h'
        · rcases List.mem_singleton.mp h' with rfl
          exact ⟨hwin, pySlice_window_length text i0 1000⟩
      · rw [if_neg hwin] at hv
        exact ih acc hacc v hv
  · rw [if_neg hsi]
    intro v hv
    cases hv

/-- C5 (amended): for every cleaned text (and any regex behaviour), the
chunk values the Chunker assembles number at most 20 and each has
content that is non-empty after trimming and at most 2000 characters
long; the list can be empty (see the counterexample), so the claimed
non-emptiness does not hold. -/
theorem c5_chunk_bounds (P : ProcessorParams) (text url : PyStr) :
    (createIntelligentChunksValues P text url).length ≤ 20 ∧
    ∀ v ∈ createIntelligentChunksValues P text url,
      pyStrip v.content ≠ [] ∧ v.content.length ≤ 2000 := by
  constructor
  · unfold createIntelligentChunksValues
    rw [List.length_take]
    exact min_le_left _ _
  · intro v hv
    unfold createIntelligentChunksValues at hv
    have hv1 := List.mem_of_mem_take hv
    have hv2 := (List.perm_insertionSort _ _).mem_iff.mp hv1
    rcases List.mem_append.mp hv2 with hs | hg
    · rcases mem_section_fold P url _ [] v hs with h | ⟨sd, hsd, hne, k, hk⟩
      · cases h
      · rcases List.mem_map.mp hsd with ⟨cat, _, hcat⟩
        have hcontent : sd.2.content = pyStrip ((((cat.patterns.map
            (fun p => P.regexFind p text)).flatten)).foldl
            (fun acc sp => acc ++ ' ' :: pySlice text (sp.1 - 300) (sp.2 + 300)) []) := by
          rw [← hcat]
          rfl
        have hne' : sd.2.content ≠ [] := by
          intro h
          rw [h] at hne
          cases hne
        constructor
        · rw [hk]
          show pyStrip (sd.2.content.take 2000) ≠ []
          rw [hcontent] at hne' ⊢
          exact pyStrip_take_ne 2000 (by omega) hne'
        · rw [hk]
          show (sd.2.content.take 2000).length ≤ 2000
          rw [List.length_take]
          exact min_le_left _ _
    · obtain ⟨h1, h2⟩ := mem_general_fold P text url _ v hg
      refine ⟨?_, by omega⟩
      intro h
      rw [h] at h1
      simp at h1

/-- C5 counterexample: the non-empty cleaned text `"a"` (no category
matches, no window with more than 100 trimmed characters) makes the
chunker return the *empty* list, contradicting the claimed
non-emptiness.  On `"a"` none of the taxonomy's regexes can match (each
demands multi-character literals or digits), so the no-span matcher is
the faithful `re.finditer` behaviour. -/
theorem c5_cex_empty_result :
    createIntelligentChunks trivialParams (str "a") (str "u") = .ok [] ∧
    createIntelligentChunksValues trivialParams (str "a") (str "u") = [] ∧
    str "a" ≠ [] := by
  refine ⟨rfl, rfl, by decide⟩

theorem addDocuments_fitted_preserved (s : StoreState) (cs : List DocumentChunk)
    (hfit : s.vectorizerFitted = true) :
    (addDocuments s cs).1.vectorizerFitted = true := by
  unfold addDocuments
  by_cases hcs : cs.isEmpty
  · rw [if_pos hcs]
    exact hfit
  · rw [if_neg hcs, if_pos hfit]
    exact hfit

/-- C3: the Index's fit state is a one-way transition.  Once fitted,
every further `add_documents` call keeps the flag and the vocabulary,
appends the transforms of the new texts through the *old* vocabulary
(out-of-vocabulary terms of later batches are simply absent from the
count vectors; nothing is raised and the call returns `True` on a
non-empty batch); the first successful non-empty batch is the one that
fits; and no sequence of add/search operations ever unsets the flag. -/
theorem c3_one_way_fit :
    (∀ (s : StoreState) (cs : List DocumentChunk), s.vectorizerFitted = true →
      (addDocuments s cs).1.vectorizerFitted = true ∧
      (addDocuments s cs).1.vocab = s.vocab ∧
      (addDocuments s cs).1.documentVectors
        = s.documentVectors ++ cs.map (fun c => transform s.vocab c.content) ∧
      (cs ≠ [] → (addDocuments s cs).2 = true)) ∧
    (∀ (s : StoreState) (cs : List DocumentChunk), s.vectorizerFitted = false →
      (addDocuments s cs).2 = true →
      (addDocuments s cs).1.vectorizerFitted = true ∧
      (addDocuments s cs).1.vocab = buildVocab s.maxFeatures (cs.map (fun c => c.content))) ∧
    (∀ (s : StoreState) (ops : List StoreOp), s.vectorizerFitted = true →
      (applyOps s ops).vectorizerFitted = true) := by
  refine ⟨?_, ?_, ?_⟩
  · intro s cs hfit
    unfold addDocuments
    by_cases hcs : cs.isEmpty
    · rw [if_pos hcs]
      rcases List.isEmpty_iff.mp hcs with rfl
      exact ⟨hfit, rfl, by simp, fun h => absurd rfl h⟩
    · rw [if_neg hcs, if_pos hfit]
      refine ⟨hfit, rfl, ?_, fun _ => rfl⟩
      show s.documentVectors ++ List.map (transform s.vocab) (List.map (fun c => c.content) cs) = _
      rw [List.map_map]
      rfl
  · intro s cs hunfit hok
    unfold addDocuments at hok ⊢
    by_cases hcs : cs.isEmpty
    · rw [if_pos hcs] at hok
      cases hok
    · rw [if_neg hcs, if_neg (by rw [hunfit]; exact Bool.false_ne_true)] at hok ⊢
      rcases hfe : fitTransform s.maxFeatures (cs.map (fun c => c.content)) with e | ⟨vocab, rows⟩
      · rw [hfe] at hok
        cases hok
      · rw [hfe]
        obtain ⟨_, hvocab⟩ := fitTransform_rows _ _ _ _ hfe
        exact ⟨rfl, hvocab⟩
  · intro s ops
    induction ops generalizing s with
    | nil => exact fun h => h
    | cons op rest ih =>
      intro hfit
      show (applyOps (applyOp s op) rest).vectorizerFitted = true
      refine ih _ ?_
      cases op with
      | add cs => exact addDocuments_fitted_preserved s cs hfit
      | search q k => exact hfit

/-- C3 witness: the fitted two-chunk store accepts a further batch,
keeps its vocabulary and stays fitted under a mixed operation
sequence. -/
theorem c3_witness :
    (addDocuments cexStore [cexChunkB]).1.vectorizerFitted = true ∧
    (addDocuments cexStore [cexChunkB]).1.vocab = cexStore.vocab ∧
    (applyOps cexStore [.search (str "q") 3, .add [cexChunkA]]).vectorizerFitted = true := by
  refine ⟨(c3_one_way_fit.1 cexStore [cexChunkB] (by decide)).1,
    (c3_one_way_fit.1 cexStore [cexChunkB] (by decide)).2.1,
    c3_one_way_fit.2.2 cexStore [.search (str "q") 3, .add [cexChunkA]] (by decide)⟩

/-- C4: the Matcher requests `2 × top_k` candidates (its output depends
on the search collaborator only through that call), scores each
candidate with `combined = 0.7 × similarity + 0.3 × pattern`, and
returns at most `top_k` results in non-increasing combined-score
order. -/
theorem c4_matcher_ranking (sf : PyStr → ℕ → List SearchResult) (query : PyStr) (topK : ℕ) :
    (findRelevantClausesWith sf query topK).length ≤ topK ∧
    List.Sorted (fun a b : ℚ => b ≤ a)
      ((findRelevantClausesWith sf query topK).map (fun r => r.combinedScore)) ∧
    (∀ r ∈ findRelevantClausesWith sf query topK,
      r.combinedScore = r.similarityScore * (7/10) + r.patternScore * (3/10) ∧
      r.patternScore = calculatePatternScore query r.content) ∧
    (∀ sf2 : PyStr → ℕ → List SearchResult,
      sf query (topK * 2) = sf2 query (topK * 2) →
      findRelevantClausesWith sf query topK = findRelevantClausesWith sf2 query topK) := by
  classical
  set r : RankedResult → RankedResult → Prop :=
    fun a b => b.combinedScore ≤ a.combinedScore with hr
  haveI : IsTotal RankedResult r := ⟨fun a b => (le_total b.combinedScore a.combinedScore)⟩
  haveI : IsTrans RankedResult r := ⟨fun a b c hab hbc => le_trans hbc hab⟩
  refine ⟨?_, ?_, ?_, ?_⟩
  · show (List.take topK _).length ≤ topK
    rw [List.length_take]
    exact min_le_left _ _
  · have hsorted : List.Sorted r (List.insertionSort r
        ((sf query (topK * 2)).map (fun s =>
          { toSearchResult := s,
            patternScore := calculatePatternScore query s.content,
            combinedScore := s.similarityScore * (7/10)
              + (calculatePatternScore query s.content) * (3/10),
            clauseType := identifyClauseType query s.content }))) :=
      List.sorted_insertionSort r _
    have htake : List.Sorted r ((findRelevantClausesWith sf query topK)) :=
      List.Pairwise.sublist (List.take_sublist _ _) hsorted
    exact (List.pairwise_map).mpr htake
  · intro res hres
    have h1 := List.mem_of_mem_take hres
    have h2 := (List.perm_insertionSort r _).mem_iff.mp h1
    rcases List.mem_map.mp h2 with ⟨s0, _, rfl⟩
    exact ⟨rfl, rfl⟩
  · intro sf2 hsf
    unfold findRelevantClausesWith
    rw [hsf]

/-- C4 witness: the empty search collaborator at `top_k = 2`. -/
theorem c4_witness :
    (findRelevantClausesWith emptySearchFn (str "grace period") 2).length ≤ 2 ∧
    findRelevantClausesWith emptySearchFn (str "grace period") 2
      = findRelevantClausesWith (fun q k => emptySearchFn q k) (str "grace period") 2 :=
  ⟨(c4_matcher_ranking emptySearchFn (str "grace period") 2).1,
   (c4_matcher_ranking emptySearchFn (str "grace period") 2).2.2.2
     (fun q k => emptySearchFn q k) rfl⟩

/-- C8 (amended): the pattern score is the maximum over categories of
the shared-phrase fraction and lies in `[0,1]`; the category *label*,
however, maximises the raw shared-phrase **count** (first maximiser in
declaration order, `"general"` when every count is zero) — not the
normalised fraction the claim names (see the counterexample). -/
theorem c8_pattern_score_and_label (q c : PyStr) :
    0 ≤ calculatePatternScore q c ∧ calculatePatternScore q c ≤ 1 ∧
    (∀ cp ∈ clausePatterns,
      (sharedPatternCount cp.2 (pyLower q) (pyLower c) : ℚ) / (cp.2.length : ℚ)
        ≤ calculatePatternScore q c) ∧
    (∃ cp ∈ clausePatterns,
      calculatePatternScore q c
        = (sharedPatternCount cp.2 (pyLower q) (pyLower c) : ℚ) / (cp.2.length : ℚ)) ∧
    ((∀ cp ∈ clausePatterns, sharedPatternCount cp.2 (pyLower q) (pyLower c) = 0) →
      identifyClauseType q c = str "general") ∧
    (∀ cp0 ∈ clausePatterns, 0 < sharedPatternCount cp0.2 (pyLower q) (pyLower c) →
      ∃ l1 x l2, clausePatterns = l1 ++ x :: l2 ∧ identifyClauseType q c = x.1 ∧
        (∀ cp ∈ clausePatterns, sharedPatternCount cp.2 (pyLower q) (pyLower c)
          ≤ sharedPatternCount x.2 (pyLower q) (pyLower c)) ∧
        (∀ y ∈ l1, sharedPatternCount y.2 (pyLower q) (pyLower c)
          < sharedPatternCount x.2 (pyLower q) (pyLower c))) := by
  classical
  have hM := foldl_max_spec
    (fun cp : PyStr × List PyStr =>
      (sharedPatternCount cp.2 (pyLower q) (pyLower c) : ℚ) / (cp.2.length : ℚ))
    clausePatterns 0
  have hfnn : ∀ cp : PyStr × List PyStr,
      0 ≤ (sharedPatternCount cp.2 (pyLower q) (pyLower c) : ℚ) / (cp.2.length : ℚ) :=
    fun cp => div_nonneg (Nat.cast_nonneg _) (Nat.cast_nonneg _)
  have hfle : ∀ cp : PyStr × List PyStr,
      (sharedPatternCount cp.2 (pyLower q) (pyLower c) : ℚ) / (cp.2.length : ℚ) ≤ 1 := by
    intro cp
    rcases Nat.eq_zero_or_pos cp.2.length with h0 | hpos
    · have : sharedPatternCount cp.2 (pyLower q) (pyLower c) = 0 := by
        unfold sharedPatternCount
        have := List.length_filter_le
          (fun p => containsSub (pyLower q) (pyLower p) && containsSub (pyLower c) (pyLower p))
          cp.2
        omega
      rw [this, h0]
      norm_num
    · rw [div_le_one (by exact_mod_cast hpos)]
      have : sharedPatternCount cp.2 (pyLower q) (pyLower c) ≤ cp.2.length :=
        List.length_filter_le _ _
      exact_mod_cast this
  have hMle1 : (clausePatterns.foldl (fun m cp =>
      max m ((sharedPatternCount cp.2 (pyLower q) (pyLower c) : ℚ) / (cp.2.length : ℚ))) 0) ≤ 1 := by
    rcases hM.2.2 with h | ⟨x, hx, h⟩
    · rw [h]
      exact zero_le_one
    · rw [h]
      exact hfle x
  have hscore : calculatePatternScore q c
      = clausePatterns.foldl (fun m cp =>
          max m ((sharedPatternCount cp.2 (pyLower q) (pyLower c) : ℚ) / (cp.2.length : ℚ))) 0 :=
    min_eq_left hMle1
  refine ⟨?_, ?_, ?_, ?_, ?_, ?_⟩
  · rw [hscore]
    exact hM.1
  · rw [hscore]
    exact hMle1
  · intro cp hcp
    rw [hscore]
    exact hM.2.1 cp hcp
  · rcases hM.2.2 with h | ⟨x, hx, h⟩
    · refine ⟨(str "grace_period",
        [str "grace period", str "premium payment", str "due date", str "thirty days"]),
        List.mem_cons_self _ _, ?_⟩
      rw [hscore, h]
      refine (le_antisymm ?_ (hfnn _)).symm
      have := hM.2.1 _ (List.mem_cons_self
        (str "grace_period",
          [str "grace period", str "premium payment", str "due date", str "thirty days"]) _)
      rw [h] at this
      exact this
    · exact ⟨x, hx, by rw [hscore, h]⟩
  · intro hz
    exact congrArg Prod.fst (foldl_best_fixed
      (fun cp : PyStr × List PyStr => sharedPatternCount cp.2 (pyLower q) (pyLower c))
      Prod.fst clausePatterns (str "general", 0)
      (fun x hx => le_of_eq (hz x hx)))
  · intro cp0 hcp0 hpos
    have hlt : (str "general", (0:ℕ)).2 < maxCount
        (fun cp : PyStr × List PyStr => sharedPatternCount cp.2 (pyLower q) (pyLower c))
        clausePatterns :=
      lt_of_lt_of_le hpos (le_maxCount_of_mem
        (fun cp : PyStr × List PyStr => sharedPatternCount cp.2 (pyLower q) (pyLower c)) hcp0)
    obtain ⟨l1, x, l2, heq, hfx, hltl, hres⟩ := foldl_best_spec
      (fun cp : PyStr × List PyStr => sharedPatternCount cp.2 (pyLower q) (pyLower c))
      Prod.fst clausePatterns (str "general", 0) hlt
    refine ⟨l1, x, l2, heq, congrArg Prod.fst hres, ?_, ?_⟩
    · intro cp hcp
      rw [hfx]
      exact le_maxCount_of_mem
        (fun cp : PyStr × List PyStr => sharedPatternCount cp.2 (pyLower q) (pyLower c)) hcp
    · intro y hy
      have := hltl y hy
      rw [← hfx] at this
      exact this

/-- C8 counterexample: on the query/content
`"grace period cataract surgery"`, the code labels the chunk
`grace_period` (the raw-count tie is broken by declaration order), yet
the chunk's pattern score is `1/3`, attained only by `cataract`
(3-phrase list); `grace_period`'s fraction is `1/4 ≠ 1/3`, so the label
is not the category achieving the maximum pattern score. -/
theorem c8_cex_label_not_max_fraction :
    identifyClauseType cexQ cexQ = str "grace_period" ∧
    calculatePatternScore cexQ cexQ = 1/3 ∧
    (sharedPatternCount [str "grace period", str "premium payment", str "due date",
        str "thirty days"] (pyLower cexQ) (pyLower cexQ) : ℚ)
      / (([str "grace period", str "premium payment", str "due date",
          str "thirty days"] : List PyStr).length : ℚ) = 1/4 ∧
    (sharedPatternCount [str "cataract surgery", str "eye surgery", str "years"]
        (pyLower cexQ) (pyLower cexQ) : ℚ)
      / (([str "cataract surgery", str "eye surgery", str "years"] : List PyStr).length : ℚ)
      = 1/3 ∧
    ((1:ℚ)/4 ≠ 1/3) := by
  have h1 : sharedPatternCount [str "grace period", str "premium payment", str "due date",
      str "thirty days"] (pyLower cexQ) (pyLower cexQ) = 1 := by decide
  have h2 : sharedPatternCount [str "waiting period", str "pre-existing disease", str "PED",
      str "months"] (pyLower cexQ) (pyLower cexQ) = 0 := by decide
  have h3 : sharedPatternCount [str "maternity expenses", str "childbirth", str "pregnancy",
      str "months"] (pyLower cexQ) (pyLower cexQ) = 0 := by decide
  have h4 : sharedPatternCount [str "cataract surgery", str "eye surgery", str "years"]
      (pyLower cexQ) (pyLower cexQ) = 1 := by decide
  have h5 : sharedPatternCount [str "organ donor", str "transplant", str "medical expenses"]
      (pyLower cexQ) (pyLower cexQ) = 0 := by decide
  have h6 : sharedPatternCount [str "No Claim Discount", str "NCD", str "percent"]
      (pyLower cexQ) (pyLower cexQ) = 0 := by decide
  have h7 : sharedPatternCount [str "health check-up", str "preventive", str "reimbursement"]
      (pyLower cexQ) (pyLower cexQ) = 0 := by decide
  have h8 : sharedPatternCount [str "hospital defined", str "beds", str "nursing staff"]
      (pyLower cexQ) (pyLower cexQ) = 0 := by decide
  have h9 : sharedPatternCount [str "AYUSH treatment", str "Ayurveda", str "Naturopathy"]
      (pyLower cexQ) (pyLower cexQ) = 0 := by decide
  have h10 : sharedPatternCount [str "room rent", str "ICU charges", str "percent"]
      (pyLower cexQ) (pyLower cexQ) = 0 := by decide
  refine ⟨by decide, ?_, ?_, ?_, by norm_num⟩
  · unfold calculatePatternScore clausePatterns
    simp only [List.foldl_cons, List.foldl_nil]
    rw [h1, h2, h3, h4, h5, h6, h7, h8, h9, h10]
    norm_num [max_def, min_def]
  · rw [h1]
    norm_num
  · rw [h4]
    norm_num

/-- C8 witness: the positive-count branch of the amended theorem applied
to the counterexample query, producing the earliest raw-count
maximiser. -/
theorem c8_witness :
    0 < sharedPatternCount [str "grace period", str "premium payment", str "due date",
      str "thirty days"] (pyLower cexQ) (pyLower cexQ) ∧
    (∃ l1 x l2, clausePatterns = l1 ++ x :: l2 ∧ identifyClauseType cexQ cexQ = x.1 ∧
      (∀ cp ∈ clausePatterns, sharedPatternCount cp.2 (pyLower cexQ) (pyLower cexQ)
        ≤ sharedPatternCount x.2 (pyLower cexQ) (pyLower cexQ)) ∧
      (∀ y ∈ l1, sharedPatternCount y.2 (pyLower cexQ) (pyLower cexQ)
        < sharedPatternCount x.2 (pyLower cexQ) (pyLower cexQ))) :=
  ⟨by decide,
   (c8_pattern_score_and_label cexQ cexQ).2.2.2.2.2
     (str "grace_period",
      [str "grace period", str "premium payment", str "due date", str "thirty days"])
     (List.mem_cons_self _ _) (by decide)⟩

/-- C9 (amended): an Index with no stored chunk returns `[]` from any
search; and the round-trip holds in the following form: for every
stored chunk whose term vector over the fixed vocabulary is not
all-zero, searching with the chunk's own content puts a result with the
maximal similarity (score 1, a chunk whose vector has the query's
direction) at the top, for every assignment of non-negative idf
weights.  A chunk whose content reduces to stop words (all-zero vector)
need not round-trip — see the counterexample. -/
theorem c9_roundtrip_amended :
    (∀ (w : ℕ → ℚ) (s : StoreState) (q : PyStr) (k : ℕ),
      s.chunks = [] → searchStore w s q k = []) ∧
    (∀ (w : ℕ → ℚ) (s : StoreState) (c : DocumentChunk) (topK : ℕ),
      (∀ i, 0 ≤ w i) → Aligned s → s.vectorizerFitted = true → c ∈ s.chunks →
      normSqW w (transform s.vocab c.content) ≠ 0 → 1 ≤ topK →
      ∃ p : DocumentChunk × ℚ,
        (searchStore w s c.content topK).head? = some p ∧ p.2 = 1) := by
  constructor
  · intro w s q k h
    unfold searchStore
    rw [if_pos]
    rw [h]
    simp
  · intro w s c topK hw hA hfit hc hnz hk
    exact searchStore_self_top1 w s c topK hw hA hfit hc hnz hk

/-- C9 counterexample: the batch `["the and", "insurance policy"]` is
added successfully (the first text is stop words only, giving the
all-zero row `[0,0,0]`).  Searching with `"the and"` — the first
chunk's own content — transforms to the zero vector, every cosine
similarity is exactly 0 whatever the idf weights, and numpy's
stable-ascending argsort reversed puts index 1 first: the top-1 result
is the *other* chunk, whose content differs. -/
theorem c9_cex_stopword_chunk :
    (addDocuments (initStore 1000) [cexChunkA, cexChunkB]).2 = true ∧
    cexChunkA ∈ cexStore.chunks ∧
    (searchStore unitW cexStore cexChunkA.content 1).map (fun r => r.1.content)
      = [str "insurance policy"] ∧
    cexChunkA.content = str "the and" ∧
    str "insurance policy" ≠ str "the and" := by
  refine ⟨by decide, by decide, ?_, rfl, by decide⟩
  have h := searchStore_zero_query unitW cexStore cexChunkA.content 1 (by decide) (by decide)
  rw [h]
  rfl

/-- C9 witness: the empty-index part at a fresh store, and the amended
round-trip at a one-chunk store whose chunk has the non-zero term vector
`[1,1,1]`. -/
theorem c9_witness :
    searchStore unitW (initStore 1000) (str "anything") 5 = [] ∧
    ∃ p : DocumentChunk × ℚ,
      (searchStore unitW oneChunkStore (str "insurance policy") 1).head? = some p ∧
      p.2 = 1 := by
  constructor
  · exact c9_roundtrip_amended.1 unitW (initStore 1000) (str "anything") 5 rfl
  · have htr : transform oneChunkStore.vocab (str "insurance policy") = [1, 1, 1] := by decide
    have hnz : normSqW unitW (transform oneChunkStore.vocab (str "insurance policy")) ≠ 0 := by
      rw [htr]
      unfold normSqW dotW unitW
      rw [max_self]
      rw [show ([1,1,1] : List ℕ).length = 3 from rfl]
      rw [Finset.sum_range_succ, Finset.sum_range_succ, Finset.sum_range_succ,
        Finset.sum_range_zero]
      norm_num
    exact c9_roundtrip_amended.2 unitW oneChunkStore cexChunkB 1
      (fun i => zero_le_one) (by unfold Aligned; decide) (by decide) (by decide) hnz (le_refl 1)
